import Mathlib

/-! # Media player tracking (`src/track/media.cpp`)

A shallow embedding of the player registry, the detection step, the title
resolvers and the session handler of `src/track/media.cpp`, followed by the
properties established about them.

Conventions of the embedding

* `std::wstring` / `std::string` are `String`; `StrToWstr` and `WstrToStr` are
  conversions between the two and are the identity here.
* A window handle is a `Nat`.
* The global objects `MediaPlayers`, `CurrentEpisode` and the effects on the
  outside (user interface, timers, list updates, calls into the recognition
  engine) are one explicit `World` value that every operation takes and
  returns; each call that leaves this file is appended to `World.log`.
* Everything that the file only calls (settings, the anisthesia library, the
  recognition engine `Meow`, the anime database, string helpers) is a field of
  `Env`.  Theorems quantify over `Env`.
* `MediaPlayer` wraps `anisthesia::Player` without adding data, so both are
  `Player`.
-/

namespace Taiga

/-! ## Data model -/

/-- The enumeration `anisthesia::PlayerType`. -/
inductive PlayerType where
  | Default
  | WebBrowser
  deriving DecidableEq, Repr

/-- The enumeration `anisthesia::MediaInformationType`. -/
inductive MediaInformationType where
  | File
  | Tab
  | Title
  | Url
  deriving DecidableEq, Repr

/-- A player definition (`anisthesia::Player`, `MediaPlayer`).  The matching
rules of the detection library are carried along as `rules`. -/
structure Player where
  name : String
  type : PlayerType
  enabled : Bool
  rules : List String
  deriving DecidableEq, Repr

/-- One piece of media information (`anisthesia::MediaInformation`). -/
structure MediaInformation where
  type : MediaInformationType
  value : String
  deriving DecidableEq, Repr

/-- One media entry of a result (`anisthesia::Media`). -/
structure Media where
  information : List MediaInformation
  deriving DecidableEq, Repr

/-- One detection result (`anisthesia::win::Result`); `window_handle` is
`result.window.handle`. -/
structure Result where
  player : Player
  window_handle : Nat
  media : List Media
  deriving DecidableEq, Repr

/-- The episode record (`anime::Episode`), with the fields this file reads or
writes; `elements` stands for what the parser stores in it. -/
structure Episode where
  anime_id : Int
  processed : Bool
  folder : String
  file_extension : String
  elements : List String
  deriving DecidableEq, Repr

/-- A library item (`anime::Item`); `id` is what `GetId()` returns. -/
structure AnimeItem where
  id : Int
  deriving DecidableEq, Repr

/-- Options of `Meow.Parse` that this file sets. -/
structure ParseOptions where
  parse_path : Bool
  streaming_media : Bool
  deriving DecidableEq, Repr

/-- Options of `Meow.Identify` that this file sets. -/
structure MatchOptions where
  allow_sequels : Bool
  check_airing_date : Bool
  check_anime_type : Bool
  check_episode_number : Bool
  deriving DecidableEq, Repr

/-- Calls that leave this file, in the order they are made. -/
inductive Event where
  | DisplayErrorMessage (text : String)
  | ProviderQuery (url : String) (title : String)
  | ParseCall (title : String) (options : ParseOptions)
  | IdentifyCall (episode : Episode) (give_score : Bool) (options : MatchOptions)
  | StartWatching (item : AnimeItem) (episode : Episode)
  | EndWatching (item : AnimeItem) (episode : Episode)
  | UpdateList (item : AnimeItem) (episode : Episode)
  | OnRecognitionFail
  | ClearStatusText
  | SetCurrentId (id : Int)
  | TimerReset
  deriving DecidableEq, Repr

/-- What one of the two player-data parsers (`anisthesia::ParsePlayersData`,
`anisthesia::ParsePlayersFile`) hands back: the boolean it returns and the
content of the `players` vector it filled. -/
structure ParseResult where
  ok : Bool
  players : List Player
  deriving DecidableEq, Repr

/-- Everything `media.cpp` calls but does not define. -/
structure Env where
  /-- The setting `taiga::kRecognition_DetectMediaPlayers`. -/
  kRecognition_DetectMediaPlayers : Bool
  /-- The setting `taiga::kRecognition_DetectStreamingMedia`. -/
  kRecognition_DetectStreamingMedia : Bool
  /-- The setting `taiga::kApp_Option_EnableRecognition`. -/
  kApp_Option_EnableRecognition : Bool
  /-- The setting `taiga::kSync_Update_OutOfRoot`. -/
  kSync_Update_OutOfRoot : Bool
  /-- The setting `taiga::kSync_Update_WaitPlayer`. -/
  kSync_Update_WaitPlayer : Bool
  /-- The setting `taiga::kSync_Update_CheckPlayer`. -/
  kSync_Update_CheckPlayer : Bool
  /-- The list `Settings.library_folders`. -/
  library_folders : List String
  /-- The constant `anime::ID_UNKNOWN`. -/
  ID_UNKNOWN : Int
  /-- The constant `anime::ID_NOTINLIST`. -/
  ID_NOTINLIST : Int
  /-- The predicate `anime::IsValidId`. -/
  IsValidId : Int → Bool
  /-- The lookup `AnimeDatabase.FindItem` (its second argument only switches a
  log line and is dropped). -/
  FindItem : Int → Option AnimeItem
  /-- The predicate `anime::IsInsideLibraryFolders`. -/
  IsInsideLibraryFolders : String → Bool
  /-- The call `Meow.Parse(title, options, episode)`: the boolean returned and
  the episode it leaves behind. -/
  Parse : String → ParseOptions → Episode → Bool × Episode
  /-- The call `Meow.Identify(episode, give_score, options)`: the id returned
  and the episode it leaves behind. -/
  Identify : Episode → Bool → MatchOptions → Int × Episode
  /-- The check `Meow.IsValidAnimeType` on an episode. -/
  IsValidAnimeTypeEpisode : Episode → Bool
  /-- The check `Meow.IsValidAnimeType` on a path. -/
  IsValidAnimeTypePath : String → Bool
  /-- The check `Meow.IsValidFileExtension`. -/
  IsValidFileExtension : String → Bool
  /-- The helper `GetFileExtension`. -/
  GetFileExtension : String → String
  /-- The helper `TrimLeft(value, trim_chars)`: the trimmed value. -/
  TrimLeft : String → String → String
  /-- The helper `NormalizeWebBrowserTitle(url, title)`: the title it leaves. -/
  NormalizeWebBrowserTitle : String → String → String
  /-- The matcher `GetTitleFromStreamingMediaProvider(url, title)`: the boolean
  returned and the title it leaves. -/
  GetTitleFromStreamingMediaProvider : String → String → Bool × String
  /-- The scan `anisthesia::win::GetResults(players, verify, results)`: the
  boolean returned and the results it filled in. -/
  GetResults : List Player → (MediaInformation → Bool) → Bool × List Result
  /-- The call `GetForegroundWindow()`. -/
  GetForegroundWindow : Nat

/-- The object `MediaPlayers` (class `track::recognition::MediaPlayers`). -/
structure MediaPlayersState where
  items : List Player
  current_result_ : Option Result
  current_title_ : String
  current_page_title_ : String
  player_running_ : Bool
  title_changed_ : Bool
  deriving DecidableEq, Repr

/-- The mutable state the tick handler owns, and the trace of outside calls. -/
structure World where
  MediaPlayers : MediaPlayersState
  CurrentEpisode : Episode
  log : List Event
  deriving DecidableEq, Repr

/-- Modelled from the spec: `anime::Episode::Set` is defined outside
`media.cpp`; it is the reset across which the `processed` flag has to be
preserved by hand, so it stores the id and drops `processed`. -/
def Episode.Set (episode : Episode) (anime_id : Int) : Episode :=
  { episode with anime_id := anime_id, processed := false }

/-- Appends one outside call to the trace. -/
def World.emit (w : World) (e : Event) : World :=
  { w with log := w.log ++ [e] }

/-- Sets `MediaPlayers.title_changed_` (`set_title_changed`). -/
def World.set_title_changed (w : World) (title_changed : Bool) : World :=
  { w with MediaPlayers := { w.MediaPlayers with title_changed_ := title_changed } }

/-- Sets `MediaPlayers.player_running_` (`set_player_running`). -/
def World.set_player_running (w : World) (player_running : Bool) : World :=
  { w with MediaPlayers := { w.MediaPlayers with player_running_ := player_running } }

/-- The accessor `MediaPlayers::title_changed`. -/
def World.title_changed (w : World) : Bool := w.MediaPlayers.title_changed_

/-- The accessor `MediaPlayers::player_running`. -/
def World.player_running (w : World) : Bool := w.MediaPlayers.player_running_

/-- The accessor `MediaPlayers::current_title`. -/
def World.current_title (w : World) : String := w.MediaPlayers.current_title_

/-- The accessor `MediaPlayers::current_player_name`. -/
def World.current_player_name (w : World) : String :=
  match w.MediaPlayers.current_result_ with
  | some result => result.player.name
  | none => ""

/-- The method `MediaPlayers::IsPlayerActive`. -/
def IsPlayerActive (env : Env) (w : World) : Bool :=
  if !env.kSync_Update_CheckPlayer then true
  else
    match w.MediaPlayers.current_result_ with
    | some result => decide (result.window_handle = env.GetForegroundWindow)
    | none => false

/-! ## Registry: `MediaPlayers::Load` -/

/-- The algorithm `std::find_if` on a vector: the position of the first
element satisfying `p`, or `none` for `end()`. -/
def find_if {α : Type} (p : α → Bool) : List α → Option Nat
  | [] => none
  | x :: xs => if p x then some 0 else (find_if p xs).map (· + 1)

/-- The first loop of `Load` (lines 54-56): every parsed default is pushed. -/
def LoadDefaults (items : List Player) : List Player → List Player
  | [] => items
  | player :: players => LoadDefaults (items ++ [player]) players

/-- The second loop of `Load` (lines 61-73): an entry with the same name is
assigned over, otherwise the record is pushed. -/
def LoadOverrides (items : List Player) : List Player → List Player
  | [] => items
  | player :: players =>
    match find_if (fun item => decide (item.name = player.name)) items with
    | some it => LoadOverrides (items.set it player) players
    | none => LoadOverrides (items ++ [player]) players

/-- The list `items` at line 76 of `Load`, from what the two parsers returned
(`data` for the embedded resource, `file` for the user file). -/
def LoadItems (data file : ParseResult) : List Player :=
  let items : List Player := []
  let items := if data.ok then LoadDefaults items data.players else items
  if file.ok then LoadOverrides items file.players else items

/-- The method `MediaPlayers::Load`: the value returned and the state left.
The `LOGD` lines are debug output and are not traced. -/
def Load (data file : ParseResult) (w : World) : Bool × World :=
  let items := LoadItems data file
  let w := { w with MediaPlayers := { w.MediaPlayers with items := items } }
  if items.isEmpty then
    (false, w.emit (Event.DisplayErrorMessage "Could not read media players data."))
  else
    (true, w)

/-! ## Detection: enabled players and media verification -/

/-- The function `GetEnabledPlayers`. -/
def GetEnabledPlayers (env : Env) : List Player → List Player
  | [] => []
  | player :: players =>
    if !player.enabled then GetEnabledPlayers env players
    else
      match player.type with
      | PlayerType.Default =>
        if !env.kRecognition_DetectMediaPlayers then GetEnabledPlayers env players
        else player :: GetEnabledPlayers env players
      | PlayerType.WebBrowser =>
        if !env.kRecognition_DetectStreamingMedia then GetEnabledPlayers env players
        else player :: GetEnabledPlayers env players

/-- The function `VerifyMedia`, the validator handed to the scan. -/
def VerifyMedia (env : Env) (media_information : MediaInformation) : Bool :=
  let value := media_information.value
  match media_information.type with
  | MediaInformationType.File =>
    if !env.IsValidFileExtension (env.GetFileExtension value) then false
    else if !env.IsValidAnimeTypePath value then false
    else true
  | _ => true

/-! ## Title resolution -/

/-- The function `GetTitleFromDefaultPlayer`: the value returned and the
content of `title` afterwards. -/
def GetTitleFromDefaultPlayer (env : Env) : List Media → String → Bool × String
  | [], title => (false, title)
  | item :: media, title =>
    match item.information with
    | information :: _ =>
      let value := information.value
      let value :=
        match information.type with
        | MediaInformationType.File => env.TrimLeft value "\\?"
        | _ => value
      (true, value)
    | [] => GetTitleFromDefaultPlayer env media title

/-- The locals `page_title`, `url` and `tabs` of `GetTitleFromWebBrowser`. -/
structure BrowserScan where
  page_title : String
  url : String
  tabs : List String
  deriving DecidableEq, Repr

/-- The inner loop at lines 193-206. -/
def scanInformation (s : BrowserScan) : List MediaInformation → BrowserScan
  | [] => s
  | information :: rest =>
    let value := information.value
    match information.type with
    | MediaInformationType.Tab => scanInformation { s with tabs := s.tabs ++ [value] } rest
    | MediaInformationType.Title => scanInformation { s with page_title := value } rest
    | MediaInformationType.Url => scanInformation { s with url := value } rest
    | MediaInformationType.File => scanInformation s rest

/-- The outer loop at lines 192-207. -/
def scanMedia (s : BrowserScan) : List Media → BrowserScan
  | [] => s
  | item :: media => scanMedia (scanInformation s item.information) media

/-- Lines 188-212 of `GetTitleFromWebBrowser`: the collected page title, url
and tabs, the titles normalized with the url. -/
def normalizedScan (env : Env) (media : List Media) : BrowserScan :=
  let s := scanMedia { page_title := "", url := "", tabs := [] } media
  { page_title := env.NormalizeWebBrowserTitle s.url s.page_title,
    url := s.url,
    tabs := s.tabs.map (env.NormalizeWebBrowserTitle s.url) }

/-- The test of lines 214-225: the episode id is valid and the page title, or
else some tab, is non-empty and equal to the cached page title. -/
def shortCircuits (env : Env) (CurrentEpisode : Episode) (s : BrowserScan)
    (current_page_title : String) : Bool :=
  if env.IsValidId CurrentEpisode.anime_id then
    if !s.page_title.isEmpty && decide (s.page_title = current_page_title) then true
    else s.tabs.any (fun tab => !tab.isEmpty && decide (tab = current_page_title))
  else false

/-- What a title resolver leaves behind: the value returned, the cached page
title, the content of `title`, and the matcher queries made. -/
structure TitleOut where
  ok : Bool
  current_page_title : String
  title : String
  queries : List Event
  deriving DecidableEq, Repr

/-- The function `GetTitleFromWebBrowser`. -/
def GetTitleFromWebBrowser (env : Env) (CurrentEpisode : Episode) (media : List Media)
    (current_title : String) (current_page_title : String) (_title : String) : TitleOut :=
  let s := normalizedScan env media
  if shortCircuits env CurrentEpisode s current_page_title then
    { ok := true, current_page_title := current_page_title, title := current_title,
      queries := [] }
  else
    let title := s.page_title
    let answer := env.GetTitleFromStreamingMediaProvider s.url title
    let queries := [Event.ProviderQuery s.url title]
    if answer.1 then
      { ok := true, current_page_title := s.page_title, title := answer.2, queries := queries }
    else
      { ok := false, current_page_title := "", title := answer.2, queries := queries }

/-- The function `GetTitleFromResult`. -/
def GetTitleFromResult (env : Env) (CurrentEpisode : Episode) (result : Result)
    (current_title : String) (current_page_title : String) (title : String) : TitleOut :=
  match result.player.type with
  | PlayerType.Default =>
    let r := GetTitleFromDefaultPlayer env result.media title
    { ok := r.1, current_page_title := current_page_title, title := r.2, queries := [] }
  | PlayerType.WebBrowser =>
    GetTitleFromWebBrowser env CurrentEpisode result.media current_title current_page_title title

/-! ## Detection: `MediaPlayers::CheckRunningPlayers` -/

/-- The algorithm `std::rotate(first, middle, last)` on positions of a vector:
the element at `middle` becomes the one at `first`, the run `first..middle`
follows the run `middle..last`. -/
def rotate {α : Type} (l : List α) (first middle last : Nat) : List α :=
  l.take first ++ ((l.drop middle).take (last - middle)
    ++ (l.drop first).take (middle - first)) ++ l.drop last

/-- Lines 259-266 of `CheckRunningPlayers`: the results after the move to the
front of the previously detected window. -/
def stickResults (env : Env) (w : World) (results : List Result) : List Result :=
  match w.MediaPlayers.current_result_ with
  | some current =>
    if env.IsValidId w.CurrentEpisode.anime_id then
      match find_if (fun result => decide (result.window_handle = current.window_handle))
          results with
      | some it => rotate results 0 it (it + 1)
      | none => results
    else results
  | none => results

/-- The results the loop of `CheckRunningPlayers` iterates over: those of the
scan, reordered, when the scan returned true; the loop is not entered
otherwise. -/
def candidates (env : Env) (w : World) : List Result :=
  let scan := env.GetResults (GetEnabledPlayers env w.MediaPlayers.items) (VerifyMedia env)
  if scan.1 then stickResults env w scan.2 else []

/-- Lines 273-281 of `CheckRunningPlayers`: a result whose title resolved is
accepted. -/
def acceptResult (w : World) (result : Result) (title : String) : World :=
  let w := { w with MediaPlayers := { w.MediaPlayers with current_result_ := some result } }
  let w :=
    if w.MediaPlayers.current_title_ ≠ title then
      ({ w with MediaPlayers := { w.MediaPlayers with current_title_ := title } }
        ).set_title_changed true
    else w
  w.set_player_running true

/-- The state after the call at lines 271-272: the cached page title, passed
by reference, is what the resolver left, and its matcher queries are traced. -/
def afterAttempt (w : World) (r : TitleOut) : World :=
  { w with
    MediaPlayers := { w.MediaPlayers with current_page_title_ := r.current_page_title },
    log := w.log ++ r.queries }

/-- The loop at lines 270-283, with the local `title`: true and the state left
when a result was accepted (the function returns there), false and the state
reached when the loop ran to its end. -/
def tryResults (env : Env) : World → String → List Result → Bool × World
  | w, _, [] => (false, w)
  | w, title, result :: results =>
    let r := GetTitleFromResult env w.CurrentEpisode result w.MediaPlayers.current_title_
      w.MediaPlayers.current_page_title_ title
    if r.ok then (true, acceptResult (afterAttempt w r) result r.title)
    else tryResults env (afterAttempt w r) r.title results

/-- Lines 268-287 of `CheckRunningPlayers` on the list the loop iterates over:
the loop, then the reset of the sticky result when nothing was accepted. -/
def checkCandidates (env : Env) (w : World) (results : List Result) : Bool × World :=
  let r := tryResults env w "" results
  if r.1 then (true, r.2)
  else (false, { r.2 with MediaPlayers := { r.2.MediaPlayers with current_result_ := none } })

/-- The method `MediaPlayers::CheckRunningPlayers`: the value returned and the
state left. -/
def CheckRunningPlayers (env : Env) (w : World) : Bool × World :=
  checkCandidates env w (candidates env w)

/-- The method `MediaPlayers::GetRunningPlayer`: the first registry entry
named like the player of the sticky result, `none` for `nullptr`. -/
def GetRunningPlayer (w : World) : Option Player :=
  match w.MediaPlayers.current_result_ with
  | some current => w.MediaPlayers.items.find? (fun item => decide (item.name = current.player.name))
  | none => none

/-! ## Session handler -/

/-- Lines 378-381 of `ProcessMediaPlayerTitle`: the title was not recognized. -/
def notRecognized (env : Env) (w : World) (ignore_file : Bool) : World :=
  let w := { w with CurrentEpisode := w.CurrentEpisode.Set env.ID_NOTINLIST }
  if !ignore_file then w.emit Event.OnRecognitionFail else w

/-- Lines 384-400 of `ProcessMediaPlayerTitle`: the caption changed while an
episode id was set; `anime_item` is the item looked up at line 338. -/
def captionChanged (env : Env) (w : World) (anime_item : Option AnimeItem) : World :=
  let w := w.set_title_changed false
  let w := w.emit Event.ClearStatusText
  let processed := w.CurrentEpisode.processed
  let w := { w with CurrentEpisode := w.CurrentEpisode.Set env.ID_UNKNOWN }
  let w :=
    match anime_item with
    | some item =>
      let w := w.emit (Event.EndWatching item w.CurrentEpisode)
      let w := { w with CurrentEpisode :=
        { w.CurrentEpisode with anime_id := item.id, processed := processed } }
      let w := w.emit (Event.UpdateList item w.CurrentEpisode)
      { w with CurrentEpisode := { w.CurrentEpisode with anime_id := env.ID_UNKNOWN } }
    | none => w.emit (Event.SetCurrentId env.ID_UNKNOWN)
  w.emit Event.TimerReset

/-- The static `parse_options` as lines 347-348 set it. -/
def parse_options (media_player : Player) : ParseOptions :=
  { parse_path := true,
    streaming_media := decide (media_player.type = PlayerType.WebBrowser) }

/-- The static `match_options` as lines 356-359 set it. -/
def match_options : MatchOptions :=
  { allow_sequels := true, check_airing_date := true,
    check_anime_type := true, check_episode_number := true }

/-- The local `is_inside_library_folders` after lines 350-353, for the parsed
episode. -/
def is_inside_library_folders (env : Env) (CurrentEpisode : Episode) : Bool :=
  if env.kSync_Update_OutOfRoot then
    if !CurrentEpisode.folder.isEmpty && !env.library_folders.isEmpty then
      env.IsInsideLibraryFolders CurrentEpisode.folder
    else true
  else true

/-- The function `ProcessMediaPlayerTitle`.  The result is `none` where the
code dereferences a null item (line 365, when the database has no item for the
id the matcher returned).  `StartWatching`, `EndWatching` and `UpdateList` are
recorded with the item and the episode they are handed. -/
def ProcessMediaPlayerTitle (env : Env) (media_player : Player) (w : World) : Option World :=
  let anime_item := env.FindItem w.CurrentEpisode.anime_id
  if w.CurrentEpisode.anime_id = env.ID_UNKNOWN then
    if !env.kApp_Option_EnableRecognition then some w
    else
      let w := w.emit (Event.ParseCall w.current_title (parse_options media_player))
      let parsed := env.Parse w.current_title (parse_options media_player) w.CurrentEpisode
      let w := { w with CurrentEpisode := parsed.2 }
      if parsed.1 then
        if is_inside_library_folders env w.CurrentEpisode then
          let w := w.emit (Event.IdentifyCall w.CurrentEpisode true match_options)
          let identified := env.Identify w.CurrentEpisode true match_options
          let anime_id := identified.1
          let w := { w with CurrentEpisode := identified.2 }
          if env.IsValidId anime_id then
            match env.FindItem anime_id with
            | none => none
            | some anime_item =>
              let w := w.set_title_changed false
              let w := { w with CurrentEpisode := w.CurrentEpisode.Set anime_item.id }
              some (w.emit (Event.StartWatching anime_item w.CurrentEpisode))
          else if !env.IsValidAnimeTypeEpisode w.CurrentEpisode then
            some (notRecognized env w true)
          else if !w.CurrentEpisode.file_extension.isEmpty
              && !env.IsValidFileExtension w.CurrentEpisode.file_extension then
            some (notRecognized env w true)
          else some (notRecognized env w false)
        else some (notRecognized env w true)
      else some (notRecognized env w false)
  else
    if w.title_changed then some (captionChanged env w anime_item)
    else some w

/-- The function `ProcessMediaPlayerStatus`; `media_player` is `none` for a
null pointer. -/
def ProcessMediaPlayerStatus (env : Env) (media_player : Option Player) (w : World) :
    Option World :=
  match media_player with
  | some player => ProcessMediaPlayerTitle env player w
  | none =>
    match env.FindItem w.CurrentEpisode.anime_id with
    | some anime_item =>
      let processed := w.CurrentEpisode.processed
      let w := { w with CurrentEpisode := w.CurrentEpisode.Set env.ID_UNKNOWN }
      let w := w.emit (Event.EndWatching anime_item w.CurrentEpisode)
      let w :=
        if env.kSync_Update_WaitPlayer then
          let w := { w with CurrentEpisode :=
            { w.CurrentEpisode with anime_id := anime_item.id, processed := processed } }
          let w := w.emit (Event.UpdateList anime_item w.CurrentEpisode)
          { w with CurrentEpisode := { w.CurrentEpisode with anime_id := env.ID_UNKNOWN } }
        else w
      some (w.emit Event.TimerReset)
    | none =>
      if w.player_running then
        let w := w.emit Event.ClearStatusText
        let w := { w with CurrentEpisode := w.CurrentEpisode.Set env.ID_UNKNOWN }
        let w := w.set_player_running false
        let w := w.emit (Event.SetCurrentId env.ID_UNKNOWN)
        some (w.emit Event.TimerReset)
      else some w

/-! ## Notions used to state the properties -/

/-- The records a parser contributed: its `players` when it returned true,
nothing otherwise. -/
def ParseResult.loaded (r : ParseResult) : List Player :=
  if r.ok then r.players else []

/-- The latest record named `name` in a loading order, if there is one. -/
def latestDefinition (loaded : List Player) (name : String) : Option Player :=
  loaded.reverse.find? (fun p => decide (p.name = name))

/-- The feature flag of a player's category. -/
def categoryFlag (env : Env) (player : Player) : Bool :=
  match player.type with
  | PlayerType.Default => env.kRecognition_DetectMediaPlayers
  | PlayerType.WebBrowser => env.kRecognition_DetectStreamingMedia

/-- The replace-or-append step of the override loop written as a recursion
over the registry; used in proofs only. -/
def mergeRecord : List Player → Player → List Player
  | [], r => [r]
  | e :: es, r => if e.name = r.name then r :: es else e :: mergeRecord es r

/-! ## Sample values -/

/-- A local-file player definition. -/
def mpc : Player := { name := "mpc", type := PlayerType.Default, enabled := true, rules := ["mpc-hc.exe"] }

/-- A second definition named like `mpc`, with other rules. -/
def mpcOverride : Player :=
  { name := "mpc", type := PlayerType.Default, enabled := false, rules := ["mpc-be.exe"] }

/-- A local-file player definition under another name. -/
def vlc : Player := { name := "vlc", type := PlayerType.Default, enabled := true, rules := ["vlc.exe"] }

/-- A browser definition. -/
def firefox : Player :=
  { name := "firefox", type := PlayerType.WebBrowser, enabled := true, rules := ["firefox.exe"] }

/-- An episode record with the given id and nothing else set. -/
def episodeWithId (anime_id : Int) : Episode :=
  { anime_id := anime_id, processed := false, folder := "", file_extension := "", elements := [] }

/-- A state with an empty registry, no sticky result, nothing running. -/
def emptyWorld : World :=
  { MediaPlayers :=
      { items := [], current_result_ := none, current_title_ := "",
        current_page_title_ := "", player_running_ := false, title_changed_ := false },
    CurrentEpisode := episodeWithId 0,
    log := [] }

/-- A result of the local-file player `mpc` in window 2. -/
def playerResult : Result :=
  { player := mpc, window_handle := 2,
    media := [{ information := [{ type := MediaInformationType.File, value := "show.mkv" }] }] }

/-- A result of the browser `firefox` in window 1, with a page title and a url. -/
def browserResult : Result :=
  { player := firefox, window_handle := 1,
    media := [{ information :=
      [{ type := MediaInformationType.Title, value := "page" },
       { type := MediaInformationType.Url, value := "site" }] }] }

/-- A result of the browser `firefox` in window 3 without any information. -/
def blankBrowserResult : Result :=
  { player := firefox, window_handle := 3, media := [] }

/-- A sample environment: ids above 0 are valid and in the database, the
parser accepts non-empty titles, the matcher answers 123 for a parsed episode,
the provider matcher accepts pages with a url, the scan returns
`browserResult` then `playerResult`. -/
def sampleEnv : Env :=
  { kRecognition_DetectMediaPlayers := true,
    kRecognition_DetectStreamingMedia := true,
    kApp_Option_EnableRecognition := true,
    kSync_Update_OutOfRoot := false,
    kSync_Update_WaitPlayer := true,
    kSync_Update_CheckPlayer := false,
    library_folders := [],
    ID_UNKNOWN := 0,
    ID_NOTINLIST := -1,
    IsValidId := fun id => decide (0 < id),
    FindItem := fun id => if 0 < id then some { id := id } else none,
    IsInsideLibraryFolders := fun _ => true,
    Parse := fun title _ episode => (!title.isEmpty, { episode with elements := [title] }),
    Identify := fun episode _ _ => (if episode.elements.isEmpty then 0 else 123, episode),
    IsValidAnimeTypeEpisode := fun _ => true,
    IsValidAnimeTypePath := fun _ => true,
    IsValidFileExtension := fun _ => true,
    GetFileExtension := fun value => value,
    TrimLeft := fun value _ => value,
    NormalizeWebBrowserTitle := fun _ title => title,
    GetTitleFromStreamingMediaProvider := fun url title => (!url.isEmpty, title),
    GetResults := fun _ _ => (true, [browserResult, playerResult]),
    GetForegroundWindow := 0 }

/-- A state in which `playerResult` is the sticky result and episode 123 is
being watched. -/
def watchingWorld : World :=
  { MediaPlayers :=
      { items := [mpc, firefox], current_result_ := some playerResult,
        current_title_ := "show.mkv", current_page_title_ := "",
        player_running_ := true, title_changed_ := false },
    CurrentEpisode := episodeWithId 123,
    log := [] }

/-- The outcome of resolving the title of candidate `c` during the tick that
starts in state `w`, at the moment the cached page title is `cache`. -/
def resolveIn (env : Env) (w : World) (cache : String) (c : Result) : TitleOut :=
  GetTitleFromResult env w.CurrentEpisode c w.MediaPlayers.current_title_ cache ""

/-- The cached page title after the candidates `cs` were tried one after the
other, starting from `cache`. -/
def cacheAfter (env : Env) (w : World) : String → List Result → String
  | cache, [] => cache
  | cache, c :: cs => cacheAfter env w (resolveIn env w cache c).current_page_title cs

/-- Candidate number `i` of `cs` resolves a title when the candidates are tried
in order from state `w`. -/
def resolvesAt (env : Env) (w : World) (cs : List Result) (i : Nat) : Bool :=
  match cs[i]? with
  | some c =>
    (resolveIn env w (cacheAfter env w w.MediaPlayers.current_page_title_ (cs.take i)) c).ok
  | none => false

/-- What `Meow.Parse` returns at line 349 when `ProcessMediaPlayerTitle` runs
for `media_player` in state `w`. -/
def parseOutcome (env : Env) (media_player : Player) (w : World) : Bool × Episode :=
  env.Parse w.current_title (parse_options media_player) w.CurrentEpisode

/-- What `Meow.Identify` returns at line 360 for the episode parsed at line
349. -/
def identifyOutcome (env : Env) (media_player : Player) (w : World) : Int × Episode :=
  env.Identify (parseOutcome env media_player w).2 true match_options

/-- The events traced by a step from `w` to `w2`. -/
def emittedBetween (w w2 : World) : List Event := w2.log.drop w.log.length

/-- The event is a `StartWatching`. -/
def Event.isStartWatching : Event → Bool
  | Event.StartWatching _ _ => true
  | _ => false

/-- The event is an `EndWatching`. -/
def Event.isEndWatching : Event → Bool
  | Event.EndWatching _ _ => true
  | _ => false

/-- The event is an `UpdateList`. -/
def Event.isUpdateList : Event → Bool
  | Event.UpdateList _ _ => true
  | _ => false

/-- An idle state whose title just changed to "page". -/
def idleChangedWorld : World :=
  { MediaPlayers :=
      { items := [mpc, firefox], current_result_ := some browserResult,
        current_title_ := "page", current_page_title_ := "page",
        player_running_ := true, title_changed_ := true },
    CurrentEpisode := episodeWithId 0,
    log := [] }

/-- The state `watchingWorld` after the title changed to "other.mkv". -/
def changedWorld : World :=
  { MediaPlayers :=
      { items := [mpc, firefox], current_result_ := some playerResult,
        current_title_ := "other.mkv", current_page_title_ := "",
        player_running_ := true, title_changed_ := true },
    CurrentEpisode := episodeWithId 123,
    log := [] }

/-- The sample environment with a matcher that finds nothing. -/
def noMatchEnv : Env := { sampleEnv with Identify := fun episode _ _ => (0, episode) }

/-- The sample environment with a library folder configured, a parser that
reports the folder "elsewhere", and every folder outside the library. -/
def outsideEnv : Env :=
  { sampleEnv with
    library_folders := ["library"],
    IsInsideLibraryFolders := fun _ => false,
    Parse := fun title _ episode =>
      (!title.isEmpty, { episode with folder := "elsewhere", elements := [title] }) }

/-- The environment `outsideEnv` with the setting `kSync_Update_OutOfRoot`
switched on and a matcher that finds nothing. -/
def outsideCheckedEnv : Env :=
  { outsideEnv with
    kSync_Update_OutOfRoot := true,
    Identify := fun episode _ _ => (0, episode) }

/-- A state tracking a title that is not in the list (id -1), right after the
title changed. -/
def notInListChangedWorld : World :=
  { changedWorld with CurrentEpisode := episodeWithId (-1) }

/-- The state `watchingWorld` with the episode 123 already processed. -/
def processedWorld : World :=
  { watchingWorld with CurrentEpisode := { episodeWithId 123 with processed := true } }

/-- A media list whose only entry holds no information. -/
def blankMedia : List Media := [{ information := [] }]

/-- A media list whose entry holds a title first and a file second. -/
def mixedMedia : List Media :=
  [{ information :=
      [{ type := MediaInformationType.Title, value := "Show" },
       { type := MediaInformationType.File, value := "show.mkv" }] }]

/-- The sample environment with a scan that fails. -/
def noScanEnv : Env := { sampleEnv with GetResults := fun _ _ => (false, []) }

/-! ## Ticks -/

/-- Modelled from the spec: the timer code that drives a tick is outside
`media.cpp`; one tick is `CheckRunningPlayers`, then `ProcessMediaPlayerStatus`
applied to what `GetRunningPlayer` returns. -/
def Tick (env : Env) (w : World) : Option World :=
  ProcessMediaPlayerStatus env (GetRunningPlayer (CheckRunningPlayers env w).2)
    (CheckRunningPlayers env w).2

/-- The state after `n` ticks in the environment `env`. -/
def runTicks (env : Env) : Nat → World → Option World
  | 0, w => some w
  | n + 1, w =>
    match Tick env w with
    | some w1 => runTicks env n w1
    | none => none

/-- The states reached by ticks, in any environments whose Unknown id is
`unknown`, from a state with the episode id Unknown and no player running. -/
inductive Reachable (unknown : Int) : World → Prop where
  | start (w : World) : w.CurrentEpisode.anime_id = unknown → w.player_running = false →
      Reachable unknown w
  | tick (env : Env) (w w2 : World) : Reachable unknown w → env.ID_UNKNOWN = unknown →
      Tick env w = some w2 → Reachable unknown w2

/-- The sample environment with a scan that returns `playerResult` only. -/
def playerOnlyEnv : Env := { sampleEnv with GetResults := fun _ _ => (true, [playerResult]) }

/-- The sample environment with both detection flags off and a scan that
returns nothing for an empty player list. -/
def nothingEnabledEnv : Env :=
  { sampleEnv with
    kRecognition_DetectMediaPlayers := false,
    kRecognition_DetectStreamingMedia := false,
    GetResults := fun players _ => (!players.isEmpty, []) }

/-- The initial state with the registry `[mpc, firefox]`. -/
def initialWorld : World :=
  { emptyWorld with MediaPlayers := { emptyWorld.MediaPlayers with items := [mpc, firefox] } }

/-- The state one tick after `initialWorld` in `sampleEnv`: the browser page
was accepted and recognized as 123. -/
def recognizedWorld : World :=
  { MediaPlayers :=
      { items := [mpc, firefox], current_result_ := some browserResult,
        current_title_ := "page", current_page_title_ := "page",
        player_running_ := true, title_changed_ := false },
    CurrentEpisode := { episodeWithId 123 with elements := ["page"] },
    log :=
      [Event.ProviderQuery "site" "page",
       Event.ParseCall "page" { parse_path := true, streaming_media := true },
       Event.IdentifyCall { episodeWithId 0 with elements := ["page"] } true match_options,
       Event.StartWatching { id := 123 } { episodeWithId 123 with elements := ["page"] }] }

end Taiga

/-! # Properties -/

namespace Taiga

/-! ## Lemmas on `find_if` and the registry loops -/

theorem find_if_eq_none {α : Type} (p : α → Bool) (l : List α) :
    find_if p l = none ↔ ∀ x ∈ l, p x = false := by
  induction l with
  | nil => simp [find_if]
  | cons x xs ih =>
    unfold find_if
    by_cases hx : p x = true
    · simp [hx]
    · simp only [hx, Bool.false_eq_true, if_false, Option.map_eq_none', ih]
      simp at hx
      simp [hx]

theorem find_if_eq_some {α : Type} (p : α → Bool) (l : List α) (i : Nat)
    (h : find_if p l = some i) :
    ∃ x, l[i]? = some x ∧ p x = true ∧ ∀ j y, j < i → l[j]? = some y → p y = false := by
  induction l generalizing i with
  | nil => simp [find_if] at h
  | cons x xs ih =>
    unfold find_if at h
    by_cases hx : p x = true
    · simp only [hx, if_true, Option.some.injEq] at h
      subst h
      exact ⟨x, by simp, hx, by intro j y hj; omega⟩
    · simp only [hx, Bool.false_eq_true, if_false, Option.map_eq_some'] at h
      obtain ⟨k, hk, rfl⟩ := h
      obtain ⟨y, hy, hpy, hlt⟩ := ih k hk
      refine ⟨y, by simpa using hy, hpy, ?_⟩
      intro j z hj hz
      cases j with
      | zero =>
        simp at hz
        subst hz
        simpa using hx
      | succ j =>
        simp at hz
        exact hlt j z (by omega) hz

theorem find_if_isSome_of_mem {α : Type} (p : α → Bool) (l : List α) (x : α)
    (hx : x ∈ l) (hp : p x = true) : ∃ i, find_if p l = some i := by
  cases h : find_if p l with
  | some i => exact ⟨i, rfl⟩
  | none =>
    have := (find_if_eq_none p l).1 h x hx
    rw [hp] at this
    cases this

theorem LoadDefaults_eq (items D : List Player) : LoadDefaults items D = items ++ D := by
  induction D generalizing items with
  | nil => simp [LoadDefaults]
  | cons d ds ih => simp [LoadDefaults, ih]

theorem set_or_push_eq_mergeRecord (items : List Player) (r : Player) :
    (match find_if (fun item => decide (item.name = r.name)) items with
      | some it => items.set it r
      | none => items ++ [r]) = mergeRecord items r := by
  induction items with
  | nil => simp [find_if, mergeRecord]
  | cons e es ih =>
    unfold find_if mergeRecord
    by_cases he : e.name = r.name
    · simp [he]
    · simp only [he, decide_False, Bool.false_eq_true, if_false]
      rw [← ih]
      cases find_if (fun item => decide (item.name = r.name)) es <;> simp

theorem LoadOverrides_cons (items : List Player) (r : Player) (rs : List Player) :
    LoadOverrides items (r :: rs) = LoadOverrides (mergeRecord items r) rs := by
  rw [← set_or_push_eq_mergeRecord]
  conv_lhs => unfold LoadOverrides
  cases find_if (fun item => decide (item.name = r.name)) items <;> rfl

theorem LoadOverrides_eq_foldl (items O : List Player) :
    LoadOverrides items O = O.foldl mergeRecord items := by
  induction O generalizing items with
  | nil => simp [LoadOverrides]
  | cons r rs ih => rw [LoadOverrides_cons, ih]; rfl

theorem LoadItems_eq (data file : ParseResult) :
    LoadItems data file = file.loaded.foldl mergeRecord data.loaded := by
  unfold LoadItems ParseResult.loaded
  cases hd : data.ok <;> cases hf : file.ok <;>
    simp [LoadDefaults_eq, LoadOverrides_eq_foldl]

theorem find_if_first {α : Type} (p : α → Bool) (l : List α) (i : Nat) (x : α)
    (hx : l[i]? = some x) (hp : p x = true)
    (hfirst : ∀ j y, j < i → l[j]? = some y → p y = false) : find_if p l = some i := by
  have hmem : x ∈ l := List.getElem?_mem hx
  obtain ⟨k, hk⟩ := find_if_isSome_of_mem p l x hmem hp
  obtain ⟨y, hy, hpy, hlt⟩ := find_if_eq_some p l k hk
  rcases Nat.lt_trichotomy k i with h | h | h
  · have := hfirst k y h hy
    rw [hpy] at this
    cases this
  · rw [hk, h]
  · have := hlt i x h hx
    rw [hp] at this
    cases this

theorem LoadOverrides_single (items : List Player) (r : Player) :
    LoadOverrides items [r]
      = match find_if (fun item => decide (item.name = r.name)) items with
        | some it => items.set it r
        | none => items ++ [r] := by
  conv_lhs => unfold LoadOverrides
  cases find_if (fun item => decide (item.name = r.name)) items <;> simp [LoadOverrides]

theorem Load_items (data file : ParseResult) (w : World) :
    (Load data file w).2.MediaPlayers.items = LoadItems data file := by
  unfold Load
  by_cases h : (LoadItems data file).isEmpty = true <;> simp [h, World.emit]

/-! ## Registry -/

/-- C6: the registry `Load` leaves is the defaults folded with the override
records in order, one record at a time; a record named like an entry takes the
place of the first such entry (same length, every other position unchanged),
and a record whose name is absent is appended at the end. -/
theorem Load_registry_merge (data file : ParseResult) (w : World) :
    (Load data file w).2.MediaPlayers.items
        = file.loaded.foldl (fun items r => LoadOverrides items [r]) data.loaded
    ∧ (∀ (items : List Player) (r e : Player) (i : Nat),
        items[i]? = some e → e.name = r.name →
        (∀ j y, j < i → items[j]? = some y → y.name ≠ r.name) →
        (LoadOverrides items [r]).length = items.length
          ∧ (LoadOverrides items [r])[i]? = some r
          ∧ ∀ k, k ≠ i → (LoadOverrides items [r])[k]? = items[k]?)
    ∧ (∀ (items : List Player) (r : Player),
        (∀ e ∈ items, e.name ≠ r.name) → LoadOverrides items [r] = items ++ [r]) := by
  refine ⟨?_, ?_, ?_⟩
  · rw [Load_items, LoadItems_eq]
    congr 1
    funext items r
    rw [LoadOverrides_single, set_or_push_eq_mergeRecord]
  · intro items r e i he hname hfirst
    have hfind : find_if (fun item => decide (item.name = r.name)) items = some i := by
      apply find_if_first _ _ i e he (by simpa using hname)
      intro j y hj hy
      simpa using hfirst j y hj hy
    have hi : i < items.length := by
      rcases List.getElem?_eq_some_iff.1 he with ⟨h, _⟩
      exact h
    rw [LoadOverrides_single, hfind]
    refine ⟨by simp, by simp [hi], ?_⟩
    intro k hk
    simp [List.getElem?_set, Ne.symm hk]
  · intro items r habs
    have hfind : find_if (fun item => decide (item.name = r.name)) items = none := by
      rw [find_if_eq_none]
      intro x hx
      simpa using habs x hx
    rw [LoadOverrides_single, hfind]

/-- C6, at a sample registry: `mpcOverride` takes the place of `mpc` at
position 0 of `[mpc, vlc]`. -/
theorem Load_registry_merge_witness :
    (LoadOverrides [mpc, vlc] [mpcOverride]).length = 2
      ∧ (LoadOverrides [mpc, vlc] [mpcOverride])[0]? = some mpcOverride
      ∧ ∀ k, k ≠ 0 → (LoadOverrides [mpc, vlc] [mpcOverride])[k]? = [mpc, vlc][k]? :=
  (Load_registry_merge ⟨true, []⟩ ⟨true, []⟩ emptyWorld).2.1 [mpc, vlc] mpcOverride mpc 0
    rfl rfl (fun j _ hj _ => absurd hj (Nat.not_lt_zero j))

theorem map_name_mergeRecord (l : List Player) (r : Player) :
    (mergeRecord l r).map Player.name
      = if r.name ∈ l.map Player.name then l.map Player.name
        else l.map Player.name ++ [r.name] := by
  induction l with
  | nil => simp [mergeRecord]
  | cons e es ih =>
    unfold mergeRecord
    by_cases he : e.name = r.name
    · simp [he]
    · have he2 : ¬ r.name = e.name := fun h => he h.symm
      simp only [he, if_false, List.map_cons, ih, List.mem_cons, he2, false_or]
      by_cases hm : r.name ∈ es.map Player.name <;> simp [hm]

theorem nodup_mergeRecord (l : List Player) (r : Player)
    (h : (l.map Player.name).Nodup) : ((mergeRecord l r).map Player.name).Nodup := by
  rw [map_name_mergeRecord]
  by_cases hm : r.name ∈ l.map Player.name
  · simpa [hm] using h
  · rw [if_neg hm]
    rw [List.nodup_append]
    refine ⟨h, by simp, ?_⟩
    intro a ha hb
    simp at hb
    subst hb
    exact hm ha

theorem find_mergeRecord (l : List Player) (r : Player) (n : String) :
    (mergeRecord l r).find? (fun p => decide (p.name = n))
      = if r.name = n then some r else l.find? (fun p => decide (p.name = n)) := by
  induction l with
  | nil => simp [mergeRecord, List.find?_cons]; split <;> simp_all
  | cons e es ih =>
    unfold mergeRecord
    by_cases he : e.name = r.name
    · by_cases hn : r.name = n
      · simp [he, hn, List.find?_cons]
      · simp [he, hn, List.find?_cons]
    · by_cases hn : r.name = n
      · have hen : ¬ e.name = n := fun h => he (h.trans hn.symm)
        simp [he, hn, hen, List.find?_cons, ih]
      · by_cases hen : e.name = n
        · subst hen
          simp [he, hn, List.find?_cons]
        · simp [he, hn, hen, List.find?_cons, ih]

theorem latestDefinition_snoc (H : List Player) (r : Player) (n : String) :
    latestDefinition (H ++ [r]) n = if r.name = n then some r else latestDefinition H n := by
  unfold latestDefinition
  by_cases hn : r.name = n <;> simp [List.find?_cons, hn]

theorem find_eq_latestDefinition (D : List Player) (n : String)
    (h : (D.map Player.name).Nodup) :
    D.find? (fun p => decide (p.name = n)) = latestDefinition D n := by
  induction D with
  | nil => simp [latestDefinition]
  | cons d ds ih =>
    have hnd : (ds.map Player.name).Nodup := (List.nodup_cons.1 (by simpa using h)).2
    have hnot : d.name ∉ ds.map Player.name := (List.nodup_cons.1 (by simpa using h)).1
    unfold latestDefinition at ih ⊢
    rw [List.reverse_cons, List.find?_append, ← ih hnd]
    by_cases hn : d.name = n
    · have hnone : ds.find? (fun p => decide (p.name = n)) = none := by
        rw [List.find?_eq_none]
        intro x hx hxn
        apply hnot
        simp at hxn
        rw [hn, ← hxn]
        exact List.mem_map_of_mem _ hx
      simp [List.find?_cons, hn, hnone]
    · simp [List.find?_cons, hn]

theorem foldl_mergeRecord_inv (O items H : List Player)
    (hnd : (items.map Player.name).Nodup)
    (hH : ∀ n, items.find? (fun p => decide (p.name = n)) = latestDefinition H n) :
    ((O.foldl mergeRecord items).map Player.name).Nodup
      ∧ ∀ n, (O.foldl mergeRecord items).find? (fun p => decide (p.name = n))
          = latestDefinition (H ++ O) n := by
  induction O generalizing items H with
  | nil => simpa using ⟨hnd, hH⟩
  | cons r rs ih =>
    have := ih (mergeRecord items r) (H ++ [r]) (nodup_mergeRecord items r hnd)
      (by intro n; rw [find_mergeRecord, latestDefinition_snoc, hH])
    simpa using this

theorem find_of_mem_nodup (l : List Player) (e : Player)
    (h : (l.map Player.name).Nodup) (he : e ∈ l) :
    l.find? (fun p => decide (p.name = e.name)) = some e := by
  induction l with
  | nil => cases he
  | cons d ds ih =>
    have hnd : (ds.map Player.name).Nodup := (List.nodup_cons.1 (by simpa using h)).2
    have hnot : d.name ∉ ds.map Player.name := (List.nodup_cons.1 (by simpa using h)).1
    rcases List.mem_cons.1 he with rfl | hmem
    · simp [List.find?_cons]
    · have hne : ¬ d.name = e.name := by
        intro hde
        apply hnot
        rw [hde]
        exact List.mem_map_of_mem _ hmem
      simp [List.find?_cons, hne, ih hnd hmem]

theorem mergeRecord_ne_nil (l : List Player) (r : Player) : mergeRecord l r ≠ [] := by
  cases l with
  | nil => simp [mergeRecord]
  | cons e es => unfold mergeRecord; split <;> simp

theorem foldl_mergeRecord_eq_nil (O items : List Player) :
    O.foldl mergeRecord items = [] ↔ items = [] ∧ O = [] := by
  induction O generalizing items with
  | nil => simp
  | cons r rs ih =>
    simp only [List.foldl_cons, ih]
    constructor
    · intro h
      exact absurd h.1 (mergeRecord_ne_nil items r)
    · intro h
      cases h.2

/-- C7, as stated, fails: with the two defaults `mpc` and `mpcOverride`, both
named "mpc", and no override record, the registry keeps both. -/
theorem Load_names_unique_counterexample :
    ¬ ((Load ⟨true, [mpc, mpcOverride]⟩ ⟨true, []⟩ emptyWorld).2.MediaPlayers.items.map
        Player.name).Nodup := by
  rw [Load_items, LoadItems_eq]
  simp [ParseResult.loaded, mpc, mpcOverride]

/-- C7, amended: when no two loaded defaults share a name, no two entries of
the registry `Load` leaves share a name, every entry is the whole record of
the latest loaded definition with its name, and every loaded name has an
entry. -/
theorem Load_names_unique (data file : ParseResult) (w : World)
    (hD : (data.loaded.map Player.name).Nodup) :
    ((Load data file w).2.MediaPlayers.items.map Player.name).Nodup
      ∧ (∀ e ∈ (Load data file w).2.MediaPlayers.items,
          latestDefinition (data.loaded ++ file.loaded) e.name = some e)
      ∧ (∀ r ∈ data.loaded ++ file.loaded,
          ∃ e ∈ (Load data file w).2.MediaPlayers.items, e.name = r.name) := by
  rw [Load_items, LoadItems_eq]
  obtain ⟨hnd, hfind⟩ := foldl_mergeRecord_inv file.loaded data.loaded data.loaded hD
    (fun n => find_eq_latestDefinition data.loaded n hD)
  refine ⟨hnd, ?_, ?_⟩
  · intro e he
    rw [← hfind, find_of_mem_nodup _ e hnd he]
  · intro r hr
    cases hl : latestDefinition (data.loaded ++ file.loaded) r.name with
    | none =>
      unfold latestDefinition at hl
      rw [List.find?_eq_none] at hl
      exact absurd (by simp) (hl r (List.mem_reverse.2 hr))
    | some e =>
      rw [← hfind] at hl
      refine ⟨e, List.mem_of_find?_eq_some hl, ?_⟩
      simpa using List.find?_some hl

/-- C7, amended, at the defaults `[mpc, vlc]` overridden by `[mpcOverride]`. -/
theorem Load_names_unique_witness :
    ((ParseResult.mk true [mpc, vlc]).loaded.map Player.name).Nodup
      ∧ ((Load ⟨true, [mpc, vlc]⟩ ⟨true, [mpcOverride]⟩ emptyWorld).2.MediaPlayers.items.map
          Player.name).Nodup :=
  ⟨by simp [ParseResult.loaded, mpc, vlc],
   (Load_names_unique ⟨true, [mpc, vlc]⟩ ⟨true, [mpcOverride]⟩ emptyWorld
      (by simp [ParseResult.loaded, mpc, vlc])).1⟩

/-- C8: `Load` returns false exactly when the merged registry is empty, which
happens exactly when neither parser contributed a record; a failed parse of
one source does not make it fail when the other source gave a record. -/
theorem Load_fails_iff_empty (data file : ParseResult) (w : World) :
    ((Load data file w).1 = false ↔ (Load data file w).2.MediaPlayers.items = [])
      ∧ ((Load data file w).2.MediaPlayers.items = []
          ↔ data.loaded = [] ∧ file.loaded = [])
      ∧ (data.ok = false → file.ok = true → file.players ≠ [] → (Load data file w).1 = true)
      ∧ (file.ok = false → data.ok = true → data.players ≠ [] → (Load data file w).1 = true)
      := by
  have h1 : (Load data file w).1 = false ↔ (Load data file w).2.MediaPlayers.items = [] := by
    rw [Load_items]
    unfold Load
    by_cases h : (LoadItems data file).isEmpty = true
    · simp [h, List.isEmpty_iff.1 h]
    · simp only [h, Bool.false_eq_true, if_false]
      simp [List.isEmpty_iff] at h
      simp [h]
  have h2 : (Load data file w).2.MediaPlayers.items = []
      ↔ data.loaded = [] ∧ file.loaded = [] := by
    rw [Load_items, LoadItems_eq, foldl_mergeRecord_eq_nil]
  have h3 : ∀ b : Bool, b ≠ false → b = true := by decide
  refine ⟨h1, h2, ?_, ?_⟩
  · intro _ hf hne
    apply h3
    rw [Ne, h1, h2]
    rintro ⟨_, hfl⟩
    simp [ParseResult.loaded, hf] at hfl
    exact hne hfl
  · intro _ hd hne
    apply h3
    rw [Ne, h1, h2]
    rintro ⟨hdl, _⟩
    simp [ParseResult.loaded, hd] at hdl
    exact hne hdl

/-- C8, at a failed resource parse and a user file holding `vlc`. -/
theorem Load_fails_iff_empty_witness :
    (Load ⟨false, []⟩ ⟨true, [vlc]⟩ emptyWorld).1 = true :=
  (Load_fails_iff_empty ⟨false, []⟩ ⟨true, [vlc]⟩ emptyWorld).2.2.1 rfl rfl (by simp)

/-! ## Enabled players -/

/-- C9: `GetEnabledPlayers` keeps, in registry order, exactly the entries that
are enabled and whose category flag is set; with the streaming flag off the
result is the former one without its browser entries, and with the
media-player flag off it is the former one without its default entries. -/
theorem GetEnabledPlayers_eq_filter (env : Env) (players : List Player) :
    GetEnabledPlayers env players
        = players.filter (fun p => p.enabled && categoryFlag env p)
      ∧ GetEnabledPlayers { env with kRecognition_DetectStreamingMedia := false } players
        = (GetEnabledPlayers env players).filter
            (fun p => decide (p.type ≠ PlayerType.WebBrowser))
      ∧ GetEnabledPlayers { env with kRecognition_DetectMediaPlayers := false } players
        = (GetEnabledPlayers env players).filter
            (fun p => decide (p.type ≠ PlayerType.Default)) := by
  have key : ∀ (e : Env) (l : List Player),
      GetEnabledPlayers e l = l.filter (fun p => p.enabled && categoryFlag e p) := by
    intro e l
    induction l with
    | nil => simp [GetEnabledPlayers]
    | cons p ps ih =>
      unfold GetEnabledPlayers
      rw [ih]
      cases hen : p.enabled <;> cases ht : p.type <;>
        cases h1 : e.kRecognition_DetectMediaPlayers <;>
        cases h2 : e.kRecognition_DetectStreamingMedia <;>
        simp [List.filter_cons, categoryFlag, hen, ht, h1, h2]
  refine ⟨key env players, ?_, ?_⟩
  · rw [key, key, List.filter_filter]
    apply List.filter_congr
    intro p _
    cases ht : p.type <;> simp [categoryFlag, ht]
  · rw [key, key, List.filter_filter]
    apply List.filter_congr
    intro p _
    cases ht : p.type <;> simp [categoryFlag, ht]

/-! ## Sticky window -/

theorem rotate_to_front {α : Type} (l : List α) (i : Nat) (x : α) (h : l[i]? = some x) :
    rotate l 0 i (i + 1) = x :: l.eraseIdx i := by
  have hi : i < l.length := (List.getElem?_eq_some_iff.1 h).1
  have hx : l[i] = x := (List.getElem?_eq_some_iff.1 h).2
  unfold rotate
  have h1 : (l.drop i).take (i + 1 - i) = [x] := by
    rw [Nat.add_sub_cancel_left, List.drop_eq_getElem_cons hi, hx]
    simp
  rw [h1, List.eraseIdx_eq_take_drop_succ]
  simp

theorem perm_cons_eraseIdx {α : Type} (l : List α) (i : Nat) (x : α) (h : l[i]? = some x) :
    (x :: l.eraseIdx i).Perm l := by
  have hi : i < l.length := (List.getElem?_eq_some_iff.1 h).1
  have hx : l[i] = x := (List.getElem?_eq_some_iff.1 h).2
  rw [List.eraseIdx_eq_take_drop_succ]
  have hl : l = l.take i ++ x :: l.drop (i + 1) := by
    conv_lhs => rw [← List.take_append_drop i l, List.drop_eq_getElem_cons hi, hx]
  conv_rhs => rw [hl]
  exact List.perm_middle.symm

/-- C2: when the scan returned `results`, a sticky result with window handle W
exists, the episode id is valid and some result has handle W, the list tried
is the first result with handle W followed by the other results in their
order; otherwise it is `results` unchanged; it is a permutation of `results`
in both cases. -/
theorem candidates_sticky (env : Env) (w : World) (results : List Result)
    (hscan : env.GetResults (GetEnabledPlayers env w.MediaPlayers.items) (VerifyMedia env)
      = (true, results)) :
    (∀ current, w.MediaPlayers.current_result_ = some current →
        env.IsValidId w.CurrentEpisode.anime_id = true →
        (∃ r ∈ results, r.window_handle = current.window_handle) →
        ∃ i r, results[i]? = some r ∧ r.window_handle = current.window_handle
          ∧ (∀ j y, j < i → results[j]? = some y → y.window_handle ≠ current.window_handle)
          ∧ candidates env w = r :: results.eraseIdx i)
      ∧ (¬ (∃ current, w.MediaPlayers.current_result_ = some current
            ∧ env.IsValidId w.CurrentEpisode.anime_id = true
            ∧ ∃ r ∈ results, r.window_handle = current.window_handle) →
          candidates env w = results)
      ∧ (candidates env w).Perm results := by
  have hc : candidates env w = stickResults env w results := by
    unfold candidates
    simp [hscan]
  have hsticky : ∀ current, w.MediaPlayers.current_result_ = some current →
      env.IsValidId w.CurrentEpisode.anime_id = true →
      (∃ r ∈ results, r.window_handle = current.window_handle) →
      ∃ i r, results[i]? = some r ∧ r.window_handle = current.window_handle
        ∧ (∀ j y, j < i → results[j]? = some y → y.window_handle ≠ current.window_handle)
        ∧ candidates env w = r :: results.eraseIdx i := by
    intro current hcur hvalid ⟨r, hr, hrw⟩
    obtain ⟨i, hi⟩ := find_if_isSome_of_mem
      (fun result => decide (result.window_handle = current.window_handle)) results r hr
      (by simpa using hrw)
    obtain ⟨x, hx, hpx, hlt⟩ := find_if_eq_some _ _ _ hi
    refine ⟨i, x, hx, by simpa using hpx, ?_, ?_⟩
    · intro j y hj hy
      simpa using hlt j y hj hy
    · rw [hc]
      unfold stickResults
      simp only [hcur, hvalid, if_true, hi]
      exact rotate_to_front results i x hx
  have hplain : ¬ (∃ current, w.MediaPlayers.current_result_ = some current
      ∧ env.IsValidId w.CurrentEpisode.anime_id = true
      ∧ ∃ r ∈ results, r.window_handle = current.window_handle) →
      candidates env w = results := by
    intro hno
    rw [hc]
    unfold stickResults
    cases hcur : w.MediaPlayers.current_result_ with
    | none => rfl
    | some current =>
      by_cases hvalid : env.IsValidId w.CurrentEpisode.anime_id = true
      · have hnone : find_if (fun result => decide (result.window_handle = current.window_handle))
            results = none := by
          rw [find_if_eq_none]
          intro x hx
          by_contra hp
          exact hno ⟨current, hcur, hvalid, x, hx, by simpa using hp⟩
        simp [hvalid, hnone]
      · simp [hvalid]
  refine ⟨hsticky, hplain, ?_⟩
  by_cases hcond : ∃ current, w.MediaPlayers.current_result_ = some current
      ∧ env.IsValidId w.CurrentEpisode.anime_id = true
      ∧ ∃ r ∈ results, r.window_handle = current.window_handle
  · obtain ⟨current, hcur, hvalid, hex⟩ := hcond
    obtain ⟨i, r, hr, _, _, heq⟩ := hsticky current hcur hvalid hex
    rw [heq]
    exact perm_cons_eraseIdx results i r hr
  · rw [hplain hcond]

/-- C2, in `watchingWorld`: the scan returns the browser window first, the
sticky window 2 second, and the list tried is a reordering of it. -/
theorem candidates_sticky_witness :
    sampleEnv.GetResults (GetEnabledPlayers sampleEnv watchingWorld.MediaPlayers.items)
        (VerifyMedia sampleEnv) = (true, [browserResult, playerResult])
      ∧ (candidates sampleEnv watchingWorld).Perm [browserResult, playerResult] :=
  ⟨rfl, (candidates_sticky sampleEnv watchingWorld [browserResult, playerResult] rfl).2.2⟩

/-! ## Browser titles -/

theorem shortCircuits_iff (env : Env) (CurrentEpisode : Episode) (s : BrowserScan)
    (P : String) :
    shortCircuits env CurrentEpisode s P = true
      ↔ env.IsValidId CurrentEpisode.anime_id = true
        ∧ ((s.page_title ≠ "" ∧ s.page_title = P) ∨ ∃ tab ∈ s.tabs, tab ≠ "" ∧ tab = P) := by
  unfold shortCircuits
  by_cases hvalid : env.IsValidId CurrentEpisode.anime_id = true
  · by_cases hpage : s.page_title ≠ "" ∧ s.page_title = P
    · have h1 : s.page_title.isEmpty = false := by
        rw [← Bool.not_eq_true, String.isEmpty_iff]
        exact hpage.1
      simp [hvalid, hpage.2.symm, h1, hpage.1]
    · have h2 : (!s.page_title.isEmpty && decide (s.page_title = P)) = false := by
        rw [← Bool.not_eq_true]
        intro h
        apply hpage
        simp only [Bool.and_eq_true, Bool.not_eq_true', decide_eq_true_eq] at h
        refine ⟨?_, h.2⟩
        intro hempty
        have := (String.isEmpty_iff s.page_title).2 hempty
        rw [h.1] at this
        cases this
      simp only [hvalid, if_true, h2, Bool.false_eq_true, if_false, true_and, hpage, false_or,
        List.any_eq_true, Bool.and_eq_true, Bool.not_eq_true', decide_eq_true_eq]
      constructor
      · rintro ⟨tab, hmem, hne, heq⟩
        refine ⟨tab, hmem, ?_, heq⟩
        intro hempty
        have := (String.isEmpty_iff tab).2 hempty
        rw [hne] at this
        cases this
      · rintro ⟨tab, hmem, hne, heq⟩
        refine ⟨tab, hmem, ?_, heq⟩
        rw [← Bool.not_eq_true, String.isEmpty_iff]
        exact hne
  · simp [hvalid]

/-- C4, as stated, fails for an empty cached page title: the episode id 123 is
valid, the browser reports no title at all so that the normalized page title
equals the empty cache, and yet the matcher is asked and the function fails. -/
theorem browser_short_circuit_counterexample :
    sampleEnv.IsValidId (episodeWithId 123).anime_id = true
      ∧ (normalizedScan sampleEnv []).page_title = ""
      ∧ (GetTitleFromWebBrowser sampleEnv (episodeWithId 123) [] "show.mkv" "" "").ok = false
      ∧ (GetTitleFromWebBrowser sampleEnv (episodeWithId 123) [] "show.mkv" "" "").queries
          = [Event.ProviderQuery "" ""] := by
  decide

/-- C4, amended: for every non-empty cached page title P, previous title T and
media list, if the episode id is valid and the normalized page title or some
normalized tab title equals P, then `GetTitleFromWebBrowser` returns true with
title T, keeps the cached page title P and makes no matcher query. -/
theorem browser_short_circuit (env : Env) (CurrentEpisode : Episode) (media : List Media)
    (T P title : String)
    (hvalid : env.IsValidId CurrentEpisode.anime_id = true)
    (hP : P ≠ "")
    (hmatch : (normalizedScan env media).page_title = P
      ∨ P ∈ (normalizedScan env media).tabs) :
    (GetTitleFromWebBrowser env CurrentEpisode media T P title).ok = true
      ∧ (GetTitleFromWebBrowser env CurrentEpisode media T P title).title = T
      ∧ (GetTitleFromWebBrowser env CurrentEpisode media T P title).current_page_title = P
      ∧ (GetTitleFromWebBrowser env CurrentEpisode media T P title).queries = [] := by
  have hs : shortCircuits env CurrentEpisode (normalizedScan env media) P = true := by
    rw [shortCircuits_iff]
    refine ⟨hvalid, ?_⟩
    rcases hmatch with h | h
    · exact Or.inl ⟨by rw [h]; exact hP, h⟩
    · exact Or.inr ⟨P, h, hP, rfl⟩
  unfold GetTitleFromWebBrowser
  simp [hs]

/-- C4, amended, at the page of `browserResult` with the cache holding
"page". -/
theorem browser_short_circuit_witness :
    (GetTitleFromWebBrowser sampleEnv (episodeWithId 123) browserResult.media
        "Show - 05" "page" "").title = "Show - 05"
      ∧ (GetTitleFromWebBrowser sampleEnv (episodeWithId 123) browserResult.media
        "Show - 05" "page" "").queries = [] :=
  ⟨(browser_short_circuit sampleEnv (episodeWithId 123) browserResult.media
      "Show - 05" "page" "" (by decide) (by decide) (Or.inl (by decide))).2.1,
   (browser_short_circuit sampleEnv (episodeWithId 123) browserResult.media
      "Show - 05" "page" "" (by decide) (by decide) (Or.inl (by decide))).2.2.2⟩

theorem GetTitleFromDefaultPlayer_title_irrelevant (env : Env) (media : List Media)
    (t t2 : String) :
    (GetTitleFromDefaultPlayer env media t).1 = (GetTitleFromDefaultPlayer env media t2).1
      ∧ ((GetTitleFromDefaultPlayer env media t).1 = true →
          (GetTitleFromDefaultPlayer env media t).2 = (GetTitleFromDefaultPlayer env media t2).2)
      := by
  induction media with
  | nil => simp [GetTitleFromDefaultPlayer]
  | cons item rest ih =>
    unfold GetTitleFromDefaultPlayer
    cases hinfo : item.information with
    | nil => simpa using ih
    | cons information more => simp

theorem GetTitleFromResult_title_irrelevant (env : Env) (ep : Episode) (c : Result)
    (ct cache t t2 : String) :
    (GetTitleFromResult env ep c ct cache t).ok = (GetTitleFromResult env ep c ct cache t2).ok
      ∧ (GetTitleFromResult env ep c ct cache t).current_page_title
          = (GetTitleFromResult env ep c ct cache t2).current_page_title
      ∧ (GetTitleFromResult env ep c ct cache t).queries
          = (GetTitleFromResult env ep c ct cache t2).queries
      ∧ ((GetTitleFromResult env ep c ct cache t).ok = true →
          (GetTitleFromResult env ep c ct cache t).title
            = (GetTitleFromResult env ep c ct cache t2).title) := by
  unfold GetTitleFromResult
  cases c.player.type with
  | Default =>
    have h := GetTitleFromDefaultPlayer_title_irrelevant env c.media t t2
    exact ⟨h.1, rfl, rfl, h.2⟩
  | WebBrowser => exact ⟨rfl, rfl, rfl, fun _ => rfl⟩

theorem tryResults_cons (env : Env) (w : World) (t : String) (c : Result) (cs : List Result) :
    tryResults env w t (c :: cs)
      = if (GetTitleFromResult env w.CurrentEpisode c w.MediaPlayers.current_title_
              w.MediaPlayers.current_page_title_ t).ok
        then (true, acceptResult
          (afterAttempt w (GetTitleFromResult env w.CurrentEpisode c
            w.MediaPlayers.current_title_ w.MediaPlayers.current_page_title_ t))
          c
          (GetTitleFromResult env w.CurrentEpisode c w.MediaPlayers.current_title_
            w.MediaPlayers.current_page_title_ t).title)
        else tryResults env
          (afterAttempt w (GetTitleFromResult env w.CurrentEpisode c
            w.MediaPlayers.current_title_ w.MediaPlayers.current_page_title_ t))
          (GetTitleFromResult env w.CurrentEpisode c w.MediaPlayers.current_title_
            w.MediaPlayers.current_page_title_ t).title cs := by
  conv_lhs => unfold tryResults

theorem resolveIn_congr (env : Env) (w w1 : World)
    (hep : w1.CurrentEpisode = w.CurrentEpisode)
    (hct : w1.MediaPlayers.current_title_ = w.MediaPlayers.current_title_)
    (cache : String) (c : Result) : resolveIn env w1 cache c = resolveIn env w cache c := by
  unfold resolveIn
  rw [hep, hct]

theorem cacheAfter_congr (env : Env) (w w1 : World)
    (hep : w1.CurrentEpisode = w.CurrentEpisode)
    (hct : w1.MediaPlayers.current_title_ = w.MediaPlayers.current_title_)
    (cache : String) (cs : List Result) : cacheAfter env w1 cache cs = cacheAfter env w cache cs := by
  induction cs generalizing cache with
  | nil => rfl
  | cons c cs ih =>
    unfold cacheAfter
    rw [resolveIn_congr env w w1 hep hct, ih]

theorem resolvesAt_zero (env : Env) (w : World) (t : String) (c : Result) (cs : List Result) :
    resolvesAt env w (c :: cs) 0
      = (GetTitleFromResult env w.CurrentEpisode c w.MediaPlayers.current_title_
          w.MediaPlayers.current_page_title_ t).ok := by
  simp only [resolvesAt, List.getElem?_cons_zero, List.take_zero, cacheAfter, resolveIn]
  exact (GetTitleFromResult_title_irrelevant env _ c _ _ "" t).1

theorem resolvesAt_succ (env : Env) (w w1 : World) (t : String) (c : Result)
    (cs : List Result) (i : Nat)
    (hep : w1.CurrentEpisode = w.CurrentEpisode)
    (hct : w1.MediaPlayers.current_title_ = w.MediaPlayers.current_title_)
    (hcache : w1.MediaPlayers.current_page_title_
      = (GetTitleFromResult env w.CurrentEpisode c w.MediaPlayers.current_title_
          w.MediaPlayers.current_page_title_ t).current_page_title) :
    resolvesAt env w (c :: cs) (i + 1) = resolvesAt env w1 cs i
      ∧ cacheAfter env w w.MediaPlayers.current_page_title_ ((c :: cs).take (i + 1))
          = cacheAfter env w1 w1.MediaPlayers.current_page_title_ (cs.take i) := by
  have hcache2 : cacheAfter env w w.MediaPlayers.current_page_title_ ((c :: cs).take (i + 1))
      = cacheAfter env w1 w1.MediaPlayers.current_page_title_ (cs.take i) := by
    rw [List.take_succ_cons]
    conv_lhs => unfold cacheAfter
    rw [cacheAfter_congr env w w1 hep hct, hcache]
    unfold resolveIn
    rw [(GetTitleFromResult_title_irrelevant env _ c _ _ "" t).2.1]
  refine ⟨?_, hcache2⟩
  unfold resolvesAt
  rw [List.getElem?_cons_succ, hcache2]
  cases cs[i]? with
  | none => rfl
  | some d => simp only [resolveIn_congr env w w1 hep hct]

theorem tryResults_true_iff (env : Env) (cs : List Result) (w : World) (t : String) :
    (tryResults env w t cs).1 = true ↔ ∃ i, resolvesAt env w cs i = true := by
  induction cs generalizing w t with
  | nil => simp [tryResults, resolvesAt]
  | cons c cs ih =>
    rw [tryResults_cons]
    by_cases hok : (GetTitleFromResult env w.CurrentEpisode c w.MediaPlayers.current_title_
        w.MediaPlayers.current_page_title_ t).ok = true
    · simp only [hok, if_true, true_iff]
      exact ⟨0, by rw [resolvesAt_zero env w t, hok]⟩
    · simp only [hok, Bool.false_eq_true, if_false]
      rw [ih]
      constructor
      · rintro ⟨i, hi⟩
        refine ⟨i + 1, ?_⟩
        rw [(resolvesAt_succ env w (afterAttempt w _) t c cs i rfl rfl rfl).1]
        exact hi
      · rintro ⟨i, hi⟩
        cases i with
        | zero =>
          rw [resolvesAt_zero env w t] at hi
          exact absurd hi hok
        | succ k =>
          refine ⟨k, ?_⟩
          rw [← (resolvesAt_succ env w (afterAttempt w _) t c cs k rfl rfl rfl).1]
          exact hi

theorem acceptResult_fields (w : World) (c : Result) (title : String) :
    (acceptResult w c title).MediaPlayers.current_result_ = some c
      ∧ (acceptResult w c title).MediaPlayers.current_title_ = title
      ∧ (acceptResult w c title).MediaPlayers.player_running_ = true := by
  unfold acceptResult
  by_cases h : w.MediaPlayers.current_title_ = title
  · simp [h, World.set_player_running]
  · simp [h, World.set_player_running, World.set_title_changed]

theorem tryResults_first (env : Env) (cs : List Result) (w : World) (t : String) (i : Nat)
    (c : Result) (hc : cs[i]? = some c) (hi : resolvesAt env w cs i = true)
    (hlt : ∀ j, j < i → resolvesAt env w cs j = false) :
    (tryResults env w t cs).1 = true
      ∧ (tryResults env w t cs).2.MediaPlayers.current_result_ = some c
      ∧ (tryResults env w t cs).2.MediaPlayers.current_title_
          = (resolveIn env w
              (cacheAfter env w w.MediaPlayers.current_page_title_ (cs.take i)) c).title
      ∧ (tryResults env w t cs).2.MediaPlayers.player_running_ = true
      ∧ tryResults env w t cs = tryResults env w t (cs.take (i + 1)) := by
  induction cs generalizing w t i with
  | nil => simp at hc
  | cons d cs ih =>
    cases i with
    | zero =>
      simp only [List.getElem?_cons_zero, Option.some.injEq] at hc
      subst hc
      rw [resolvesAt_zero env w t] at hi
      have htitle := (GetTitleFromResult_title_irrelevant env w.CurrentEpisode d
        w.MediaPlayers.current_title_ w.MediaPlayers.current_page_title_ t "").2.2.2 hi
      simp only [Nat.zero_add, List.take_succ_cons, List.take_zero]
      rw [tryResults_cons, tryResults_cons, if_pos hi, if_pos hi]
      refine ⟨rfl, (acceptResult_fields _ _ _).1, ?_, (acceptResult_fields _ _ _).2.2, rfl⟩
      rw [(acceptResult_fields _ _ _).2.1, htitle]
      rfl
    | succ k =>
      have h0 := hlt 0 (Nat.succ_pos k)
      rw [resolvesAt_zero env w t] at h0
      have hok : ¬ (GetTitleFromResult env w.CurrentEpisode d w.MediaPlayers.current_title_
          w.MediaPlayers.current_page_title_ t).ok = true := by simp [h0]
      simp only [List.getElem?_cons_succ] at hc
      simp only [List.take_succ_cons]
      rw [tryResults_cons env w t d cs, tryResults_cons env w t d (cs.take (k + 1)),
        if_neg hok, if_neg hok]
      have hs := fun j => resolvesAt_succ env w
        (afterAttempt w (GetTitleFromResult env w.CurrentEpisode d
          w.MediaPlayers.current_title_ w.MediaPlayers.current_page_title_ t))
        t d cs j rfl rfl rfl
      rw [(hs k).1] at hi
      have hlt2 : ∀ j, j < k → resolvesAt env
          (afterAttempt w (GetTitleFromResult env w.CurrentEpisode d
            w.MediaPlayers.current_title_ w.MediaPlayers.current_page_title_ t))
          cs j = false := by
        intro j hj
        rw [← (hs j).1]
        exact hlt (j + 1) (by omega)
      have := ih _ (GetTitleFromResult env w.CurrentEpisode d w.MediaPlayers.current_title_
        w.MediaPlayers.current_page_title_ t).title k hc hi hlt2
      have hcache := (hs k).2
      simp only [List.take_succ_cons] at hcache
      rw [hcache, ← resolveIn_congr env w (afterAttempt w (GetTitleFromResult env
        w.CurrentEpisode d w.MediaPlayers.current_title_ w.MediaPlayers.current_page_title_ t))
        rfl rfl]
      exact this

theorem exists_first_true (f : Nat → Bool) (h : ∃ i, f i = true) :
    ∃ i, f i = true ∧ ∀ j, j < i → f j = false := by
  classical
  refine ⟨Nat.find h, Nat.find_spec h, ?_⟩
  intro j hj
  have := Nat.find_min h hj
  simpa using this

/-- C3: `CheckRunningPlayers` returns true exactly when some candidate of the
list tried resolves a title with the candidates tried in order; then the
sticky result is the first such candidate, `current_title_` is its resolved
title, `player_running_` is true, and the outcome is the one of the list cut
after that candidate (no later candidate is examined); when it returns false,
as it does when the scan fails, the sticky result is empty. -/
theorem CheckRunningPlayers_first_wins (env : Env) (w : World) :
    ((CheckRunningPlayers env w).1 = true
        ↔ ∃ i, resolvesAt env w (candidates env w) i = true
            ∧ ∀ j, j < i → resolvesAt env w (candidates env w) j = false)
      ∧ (∀ i c, (candidates env w)[i]? = some c →
          resolvesAt env w (candidates env w) i = true →
          (∀ j, j < i → resolvesAt env w (candidates env w) j = false) →
          (CheckRunningPlayers env w).2.MediaPlayers.current_result_ = some c
            ∧ (CheckRunningPlayers env w).2.MediaPlayers.current_title_
                = (resolveIn env w (cacheAfter env w w.MediaPlayers.current_page_title_
                    ((candidates env w).take i)) c).title
            ∧ (CheckRunningPlayers env w).2.MediaPlayers.player_running_ = true
            ∧ CheckRunningPlayers env w
                = checkCandidates env w ((candidates env w).take (i + 1)))
      ∧ ((CheckRunningPlayers env w).1 = false →
          (CheckRunningPlayers env w).2.MediaPlayers.current_result_ = none)
      ∧ ((env.GetResults (GetEnabledPlayers env w.MediaPlayers.items) (VerifyMedia env)).1
            = false → (CheckRunningPlayers env w).1 = false) := by
  have hfst : (CheckRunningPlayers env w).1 = (tryResults env w "" (candidates env w)).1 := by
    unfold CheckRunningPlayers checkCandidates
    cases h : (tryResults env w "" (candidates env w)).1 <;> simp [h]
  refine ⟨?_, ?_, ?_, ?_⟩
  · rw [hfst, tryResults_true_iff]
    constructor
    · intro h
      exact exists_first_true _ h
    · rintro ⟨i, hi, _⟩
      exact ⟨i, hi⟩
  · intro i c hc hi hlt
    obtain ⟨h1, h2, h3, h4, h5⟩ := tryResults_first env (candidates env w) w "" i c hc hi hlt
    have hcut : CheckRunningPlayers env w
        = checkCandidates env w ((candidates env w).take (i + 1)) := by
      unfold CheckRunningPlayers checkCandidates
      rw [← h5]
    have hval : CheckRunningPlayers env w = (true, (tryResults env w "" (candidates env w)).2) := by
      unfold CheckRunningPlayers checkCandidates
      simp [h1]
    refine ⟨?_, ?_, ?_, hcut⟩
    · rw [hval]; exact h2
    · rw [hval]; exact h3
    · rw [hval]; exact h4
  · intro _
    unfold CheckRunningPlayers checkCandidates
    cases h : (tryResults env w "" (candidates env w)).1 <;> simp_all
  · intro hscan
    rw [hfst]
    have : candidates env w = [] := by
      unfold candidates
      simp [hscan]
    rw [this]
    rfl

/-- C3, in `watchingWorld`: the first candidate, the sticky `playerResult`,
resolves and is accepted. -/
theorem CheckRunningPlayers_first_wins_witness :
    (CheckRunningPlayers sampleEnv watchingWorld).2.MediaPlayers.current_result_
      = some playerResult :=
  ((CheckRunningPlayers_first_wins sampleEnv watchingWorld).2.1 0 playerResult
    (by decide) (by decide) (fun j hj => absurd hj (Nat.not_lt_zero j))).1

/-! ## Session handler -/

theorem captionChanged_title_changed (env : Env) (w : World) (anime_item : Option AnimeItem) :
    (captionChanged env w anime_item).title_changed = false := by
  unfold captionChanged
  cases anime_item <;> simp [World.title_changed, World.emit, World.set_title_changed]

/-- The handler on the path of lines 361-367: the state it leaves. -/
theorem ProcessMediaPlayerTitle_recognized (env : Env) (media_player : Player) (w : World)
    (item : AnimeItem)
    (hid : w.CurrentEpisode.anime_id = env.ID_UNKNOWN)
    (hrec : env.kApp_Option_EnableRecognition = true)
    (hparse : (parseOutcome env media_player w).1 = true)
    (hfolder : is_inside_library_folders env (parseOutcome env media_player w).2 = true)
    (hvalid : env.IsValidId (identifyOutcome env media_player w).1 = true)
    (hitem : env.FindItem (identifyOutcome env media_player w).1 = some item) :
    ProcessMediaPlayerTitle env media_player w
      = some
        { MediaPlayers := { w.MediaPlayers with title_changed_ := false },
          CurrentEpisode := (identifyOutcome env media_player w).2.Set item.id,
          log := w.log ++
            [Event.ParseCall w.current_title (parse_options media_player),
             Event.IdentifyCall (parseOutcome env media_player w).2 true match_options,
             Event.StartWatching item ((identifyOutcome env media_player w).2.Set item.id)] } := by
  unfold identifyOutcome parseOutcome at *
  unfold ProcessMediaPlayerTitle
  simp [hid, hrec, World.emit, World.current_title, World.set_title_changed] at *
  simp [hparse, hfolder, hvalid, hitem]

/-- C10: in the Idle state, with recognition enabled, the parser succeeding,
the folder policy passing and the matcher returning a valid id that the
database holds as `item`, the handler returns with `title_changed` false and
the episode id equal to the id of `item`; what it emits is the parser call,
the matcher call and one `StartWatching` for `item`, hence exactly one
`StartWatching` and no recognition-failed notification. -/
theorem idle_to_recognized (env : Env) (media_player : Player) (w : World) (item : AnimeItem)
    (hid : w.CurrentEpisode.anime_id = env.ID_UNKNOWN)
    (hrec : env.kApp_Option_EnableRecognition = true)
    (hparse : (parseOutcome env media_player w).1 = true)
    (hfolder : is_inside_library_folders env (parseOutcome env media_player w).2 = true)
    (hvalid : env.IsValidId (identifyOutcome env media_player w).1 = true)
    (hitem : env.FindItem (identifyOutcome env media_player w).1 = some item) :
    ∃ w2, ProcessMediaPlayerTitle env media_player w = some w2
      ∧ w2.title_changed = false
      ∧ w2.CurrentEpisode.anime_id = item.id
      ∧ emittedBetween w w2
          = [Event.ParseCall w.current_title (parse_options media_player),
             Event.IdentifyCall (parseOutcome env media_player w).2 true match_options,
             Event.StartWatching item w2.CurrentEpisode]
      ∧ (emittedBetween w w2).countP Event.isStartWatching = 1
      ∧ Event.OnRecognitionFail ∉ emittedBetween w w2 := by
  refine ⟨_, ProcessMediaPlayerTitle_recognized env media_player w item hid hrec hparse hfolder
    hvalid hitem, rfl, rfl, ?_, ?_, ?_⟩
  · simp [emittedBetween]
  · simp [emittedBetween, Event.isStartWatching, List.countP_cons]
  · simp [emittedBetween]

/-- C10, in `idleChangedWorld`: the title "page" is parsed, matched to id 123,
and the episode id becomes 123. -/
theorem idle_to_recognized_witness :
    ∃ w2, ProcessMediaPlayerTitle sampleEnv firefox idleChangedWorld = some w2
      ∧ w2.title_changed = false
      ∧ w2.CurrentEpisode.anime_id = 123
      ∧ (emittedBetween idleChangedWorld w2).countP Event.isStartWatching = 1 := by
  obtain ⟨w2, h1, h2, h3, _, h5, _⟩ := idle_to_recognized sampleEnv firefox idleChangedWorld
    { id := 123 } (by decide) (by decide) (by decide) (by decide) (by decide) (by decide)
  exact ⟨w2, h1, h2, h3, h5⟩

/-! ## Recognition miss and the folder policy -/

theorem emittedBetween_append (w w2 : World) (es : List Event) (h : w2.log = w.log ++ es) :
    emittedBetween w w2 = es := by
  simp [emittedBetween, h]

theorem notRecognized_eq (env : Env) (w : World) (ignore_file : Bool) :
    notRecognized env w ignore_file
      = { MediaPlayers := w.MediaPlayers,
          CurrentEpisode := w.CurrentEpisode.Set env.ID_NOTINLIST,
          log := w.log ++ (if ignore_file then [] else [Event.OnRecognitionFail]) } := by
  unfold notRecognized
  cases ignore_file <;> simp [World.emit]

/-- The handler when the parser fails (line 349 false). -/
theorem ProcessMediaPlayerTitle_parse_failed (env : Env) (media_player : Player) (w : World)
    (hid : w.CurrentEpisode.anime_id = env.ID_UNKNOWN)
    (hrec : env.kApp_Option_EnableRecognition = true)
    (hparse : (parseOutcome env media_player w).1 = false) :
    ProcessMediaPlayerTitle env media_player w
      = some
        { MediaPlayers := w.MediaPlayers,
          CurrentEpisode := (parseOutcome env media_player w).2.Set env.ID_NOTINLIST,
          log := w.log ++
            [Event.ParseCall w.current_title (parse_options media_player),
             Event.OnRecognitionFail] } := by
  unfold parseOutcome at *
  unfold ProcessMediaPlayerTitle
  simp [hid, hrec, World.emit, World.current_title, notRecognized_eq] at *
  simp [hparse]

/-- The handler when the parsed file is outside the library folders (line 354
false). -/
theorem ProcessMediaPlayerTitle_outside (env : Env) (media_player : Player) (w : World)
    (hid : w.CurrentEpisode.anime_id = env.ID_UNKNOWN)
    (hrec : env.kApp_Option_EnableRecognition = true)
    (hparse : (parseOutcome env media_player w).1 = true)
    (hfolder : is_inside_library_folders env (parseOutcome env media_player w).2 = false) :
    ProcessMediaPlayerTitle env media_player w
      = some
        { MediaPlayers := w.MediaPlayers,
          CurrentEpisode := (parseOutcome env media_player w).2.Set env.ID_NOTINLIST,
          log := w.log ++ [Event.ParseCall w.current_title (parse_options media_player)] } := by
  unfold parseOutcome at *
  unfold ProcessMediaPlayerTitle
  simp [hid, hrec, World.emit, World.current_title, notRecognized_eq] at *
  simp [hparse, hfolder]

/-- The handler when the matcher returns no valid id (line 361 false). -/
theorem ProcessMediaPlayerTitle_no_match (env : Env) (media_player : Player) (w : World)
    (hid : w.CurrentEpisode.anime_id = env.ID_UNKNOWN)
    (hrec : env.kApp_Option_EnableRecognition = true)
    (hparse : (parseOutcome env media_player w).1 = true)
    (hfolder : is_inside_library_folders env (parseOutcome env media_player w).2 = true)
    (hvalid : env.IsValidId (identifyOutcome env media_player w).1 = false) :
    ProcessMediaPlayerTitle env media_player w
      = some
        { MediaPlayers := w.MediaPlayers,
          CurrentEpisode := (identifyOutcome env media_player w).2.Set env.ID_NOTINLIST,
          log := w.log ++
            [Event.ParseCall w.current_title (parse_options media_player),
             Event.IdentifyCall (parseOutcome env media_player w).2 true match_options] ++
            (if (!env.IsValidAnimeTypeEpisode (identifyOutcome env media_player w).2
                || (!(identifyOutcome env media_player w).2.file_extension.isEmpty
                    && !env.IsValidFileExtension
                      (identifyOutcome env media_player w).2.file_extension))
              then [] else [Event.OnRecognitionFail]) } := by
  unfold identifyOutcome parseOutcome at *
  unfold ProcessMediaPlayerTitle
  simp [hid, hrec, World.emit, World.current_title, notRecognized_eq] at *
  simp [hparse, hfolder, hvalid]
  cases h1 : env.IsValidAnimeTypeEpisode
      (env.Identify (env.Parse w.MediaPlayers.current_title_ (parse_options media_player)
        w.CurrentEpisode).2 true match_options).2 <;>
    cases h2 : (env.Identify (env.Parse w.MediaPlayers.current_title_
        (parse_options media_player) w.CurrentEpisode).2 true
        match_options).2.file_extension.isEmpty <;>
    cases h3 : env.IsValidFileExtension (env.Identify (env.Parse
        w.MediaPlayers.current_title_ (parse_options media_player) w.CurrentEpisode).2 true
        match_options).2.file_extension <;>
    simp

/-- C11, as stated, fails: with the folder check applied and the file outside
the library folders, the content passes the anime-type check and its extension
is allowed, the episode id becomes NotInList, and yet no recognition-failed
notification is emitted. -/
theorem recognition_miss_counterexample :
    idleChangedWorld.CurrentEpisode.anime_id = outsideCheckedEnv.ID_UNKNOWN
      ∧ outsideCheckedEnv.kApp_Option_EnableRecognition = true
      ∧ outsideCheckedEnv.IsValidAnimeTypeEpisode
          (parseOutcome outsideCheckedEnv firefox idleChangedWorld).2 = true
      ∧ outsideCheckedEnv.IsValidFileExtension
          (parseOutcome outsideCheckedEnv firefox idleChangedWorld).2.file_extension = true
      ∧ (ProcessMediaPlayerTitle outsideCheckedEnv firefox idleChangedWorld).map
          (fun w2 => w2.CurrentEpisode.anime_id) = some outsideCheckedEnv.ID_NOTINLIST
      ∧ (ProcessMediaPlayerTitle outsideCheckedEnv firefox idleChangedWorld).map
          (fun w2 => decide (Event.OnRecognitionFail ∈ emittedBetween idleChangedWorld w2))
          = some false := by
  decide

/-- C11, amended: in the Idle state with recognition enabled, when no valid
match is obtained (the parser fails, or the file is outside the library
folders under the folder policy, or the matcher returns no valid id), the
handler leaves the episode id NotInList and emits no `StartWatching`; the
recognition-failed notification is emitted unless the parser succeeded and the
file is outside the library folders, or fails the anime-type check, or has a
non-empty disallowed extension. -/
theorem recognition_miss (env : Env) (media_player : Player) (w : World)
    (hid : w.CurrentEpisode.anime_id = env.ID_UNKNOWN)
    (hrec : env.kApp_Option_EnableRecognition = true)
    (hmiss : ¬ ((parseOutcome env media_player w).1 = true
      ∧ is_inside_library_folders env (parseOutcome env media_player w).2 = true
      ∧ env.IsValidId (identifyOutcome env media_player w).1 = true)) :
    ∃ w2, ProcessMediaPlayerTitle env media_player w = some w2
      ∧ w2.CurrentEpisode.anime_id = env.ID_NOTINLIST
      ∧ (∀ e ∈ emittedBetween w w2, e.isStartWatching = false)
      ∧ (Event.OnRecognitionFail ∈ emittedBetween w w2
          ↔ ¬ ((parseOutcome env media_player w).1 = true
              ∧ (is_inside_library_folders env (parseOutcome env media_player w).2 = false
                ∨ env.IsValidAnimeTypeEpisode (identifyOutcome env media_player w).2 = false
                ∨ ((identifyOutcome env media_player w).2.file_extension ≠ ""
                  ∧ env.IsValidFileExtension
                      (identifyOutcome env media_player w).2.file_extension = false)))) := by
  by_cases hparse : (parseOutcome env media_player w).1 = true
  · by_cases hfolder : is_inside_library_folders env (parseOutcome env media_player w).2 = true
    · have hvalid : env.IsValidId (identifyOutcome env media_player w).1 = false := by
        rw [← Bool.not_eq_true]
        intro hv
        exact hmiss ⟨hparse, hfolder, hv⟩
      refine ⟨_, ProcessMediaPlayerTitle_no_match env media_player w hid hrec hparse hfolder
        hvalid, rfl, ?_, ?_⟩
      · rw [emittedBetween_append _ _ _ (List.append_assoc _ _ _)]
        intro e he
        simp only [List.mem_append, List.mem_cons, List.mem_singleton, List.not_mem_nil,
          or_false] at he
        rcases he with (rfl | rfl) | he
        · rfl
        · rfl
        · split at he
          · cases he
          · simp only [List.mem_singleton] at he
            subst he
            rfl
      · rw [emittedBetween_append _ _ _ (List.append_assoc _ _ _)]
        have hne : ((identifyOutcome env media_player w).2.file_extension ≠ "")
            ↔ (identifyOutcome env media_player w).2.file_extension.isEmpty = false := by
          rw [← Bool.not_eq_true, String.isEmpty_iff]
        rw [hne]
        cases h1 : env.IsValidAnimeTypeEpisode (identifyOutcome env media_player w).2 <;>
          cases h2 : (identifyOutcome env media_player w).2.file_extension.isEmpty <;>
          cases h3 : env.IsValidFileExtension
            (identifyOutcome env media_player w).2.file_extension <;>
          simp [hparse, hfolder]
    · have hout : is_inside_library_folders env (parseOutcome env media_player w).2 = false := by
        simpa using hfolder
      refine ⟨_, ProcessMediaPlayerTitle_outside env media_player w hid hrec hparse hout,
        rfl, ?_, ?_⟩
      · rw [emittedBetween_append _ _ _ rfl]
        intro e he
        simp only [List.mem_singleton] at he
        subst he
        rfl
      · rw [emittedBetween_append _ _ _ rfl]
        simp [hparse, hout]
  · have hfail : (parseOutcome env media_player w).1 = false := by simpa using hparse
    refine ⟨_, ProcessMediaPlayerTitle_parse_failed env media_player w hid hrec hfail,
      rfl, ?_, ?_⟩
    · rw [emittedBetween_append _ _ _ rfl]
      intro e he
      simp only [List.mem_cons, List.mem_singleton, List.not_mem_nil, or_false] at he
      rcases he with rfl | rfl <;> rfl
    · rw [emittedBetween_append _ _ _ rfl]
      simp [hfail]

/-- C11, amended, with a matcher that finds nothing: the title "page" parses,
no id is found, the file is not ignorable and the notification is emitted. -/
theorem recognition_miss_witness :
    ∃ w2, ProcessMediaPlayerTitle noMatchEnv firefox idleChangedWorld = some w2
      ∧ w2.CurrentEpisode.anime_id = noMatchEnv.ID_NOTINLIST
      ∧ Event.OnRecognitionFail ∈ emittedBetween idleChangedWorld w2 := by
  obtain ⟨w2, h1, h2, _, h4⟩ := recognition_miss noMatchEnv firefox idleChangedWorld
    (by decide) (by decide) (by decide)
  exact ⟨w2, h1, h2, h4.2 (by decide)⟩

theorem captionChanged_some (env : Env) (w : World) (item : AnimeItem) :
    captionChanged env w (some item)
      = { MediaPlayers := { w.MediaPlayers with title_changed_ := false },
          CurrentEpisode :=
            { (w.CurrentEpisode.Set env.ID_UNKNOWN) with
              anime_id := env.ID_UNKNOWN, processed := w.CurrentEpisode.processed },
          log := w.log ++
            [Event.ClearStatusText,
             Event.EndWatching item (w.CurrentEpisode.Set env.ID_UNKNOWN),
             Event.UpdateList item
               { (w.CurrentEpisode.Set env.ID_UNKNOWN) with
                 anime_id := item.id, processed := w.CurrentEpisode.processed },
             Event.TimerReset] } := by
  simp [captionChanged, World.emit, World.set_title_changed]

theorem captionChanged_none (env : Env) (w : World) :
    captionChanged env w none
      = { MediaPlayers := { w.MediaPlayers with title_changed_ := false },
          CurrentEpisode := w.CurrentEpisode.Set env.ID_UNKNOWN,
          log := w.log ++
            [Event.ClearStatusText, Event.SetCurrentId env.ID_UNKNOWN, Event.TimerReset] } := by
  simp [captionChanged, World.emit, World.set_title_changed]

/-- C13, as stated, fails: in the NotInList state (no library item for the id)
with the title changed, the handler emits no `EndWatching`. -/
theorem caption_changed_counterexample :
    notInListChangedWorld.CurrentEpisode.anime_id = sampleEnv.ID_NOTINLIST
      ∧ notInListChangedWorld.title_changed = true
      ∧ (ProcessMediaPlayerTitle sampleEnv mpc notInListChangedWorld).map
          (fun w2 => (emittedBetween notInListChangedWorld w2).any Event.isEndWatching)
          = some false := by
  decide

/-- C13, amended: with the episode id not Unknown and `title_changed` true,
the handler clears `title_changed`, leaves the episode id Unknown and emits no
`StartWatching`; when a library item is associated it emits `EndWatching` for
it and then `UpdateList` with the id of the item and the `processed` flag of
before the reset; when none is associated it emits neither. -/
theorem caption_changed (env : Env) (media_player : Player) (w : World)
    (hid : w.CurrentEpisode.anime_id ≠ env.ID_UNKNOWN)
    (hchanged : w.title_changed = true) :
    ∃ w2, ProcessMediaPlayerTitle env media_player w = some w2
      ∧ w2.title_changed = false
      ∧ w2.CurrentEpisode.anime_id = env.ID_UNKNOWN
      ∧ (∀ e ∈ emittedBetween w w2, e.isStartWatching = false)
      ∧ (∀ item, env.FindItem w.CurrentEpisode.anime_id = some item →
          emittedBetween w w2
            = [Event.ClearStatusText,
               Event.EndWatching item (w.CurrentEpisode.Set env.ID_UNKNOWN),
               Event.UpdateList item
                 { (w.CurrentEpisode.Set env.ID_UNKNOWN) with
                   anime_id := item.id, processed := w.CurrentEpisode.processed },
               Event.TimerReset])
      ∧ (env.FindItem w.CurrentEpisode.anime_id = none →
          emittedBetween w w2
            = [Event.ClearStatusText, Event.SetCurrentId env.ID_UNKNOWN, Event.TimerReset]) := by
  have hrun : ProcessMediaPlayerTitle env media_player w
      = some (captionChanged env w (env.FindItem w.CurrentEpisode.anime_id)) := by
    unfold ProcessMediaPlayerTitle
    simp [hid, hchanged]
  refine ⟨_, hrun, captionChanged_title_changed _ _ _, ?_⟩
  cases hitem : env.FindItem w.CurrentEpisode.anime_id with
  | none =>
    rw [captionChanged_none]
    refine ⟨rfl, ?_, ?_, ?_⟩
    · rw [emittedBetween_append _ _ _ rfl]
      intro e he
      simp only [List.mem_cons, List.mem_singleton, List.not_mem_nil, or_false] at he
      rcases he with rfl | rfl | rfl <;> rfl
    · intro item h
      cases h
    · intro _
      exact emittedBetween_append _ _ _ rfl
  | some item =>
    rw [captionChanged_some]
    refine ⟨rfl, ?_, ?_, ?_⟩
    · rw [emittedBetween_append _ _ _ rfl]
      intro e he
      simp only [List.mem_cons, List.mem_singleton, List.not_mem_nil, or_false] at he
      rcases he with rfl | rfl | rfl | rfl <;> rfl
    · intro item2 h
      cases h
      exact emittedBetween_append _ _ _ rfl
    · intro h
      cases h

/-- C13, amended, in `changedWorld` (episode 123 tracked, title changed): the
session of item 123 is ended and the list update follows. -/
theorem caption_changed_witness :
    ∃ w2, ProcessMediaPlayerTitle sampleEnv mpc changedWorld = some w2
      ∧ w2.title_changed = false
      ∧ w2.CurrentEpisode.anime_id = 0
      ∧ (emittedBetween changedWorld w2).any Event.isEndWatching = true := by
  obtain ⟨w2, h1, h2, h3, _, h5, _⟩ := caption_changed sampleEnv mpc changedWorld
    (by decide) (by decide)
  refine ⟨w2, h1, h2, h3, ?_⟩
  rw [h5 { id := 123 } (by decide)]
  decide

theorem ProcessMediaPlayerStatus_closed (env : Env) (w : World) (item : AnimeItem)
    (hitem : env.FindItem w.CurrentEpisode.anime_id = some item) :
    ProcessMediaPlayerStatus env none w
      = some
        { MediaPlayers := w.MediaPlayers,
          CurrentEpisode :=
            if env.kSync_Update_WaitPlayer then
              { (w.CurrentEpisode.Set env.ID_UNKNOWN) with
                anime_id := env.ID_UNKNOWN, processed := w.CurrentEpisode.processed }
            else w.CurrentEpisode.Set env.ID_UNKNOWN,
          log := w.log ++
            ([Event.EndWatching item (w.CurrentEpisode.Set env.ID_UNKNOWN)] ++
              (if env.kSync_Update_WaitPlayer then
                [Event.UpdateList item
                  { (w.CurrentEpisode.Set env.ID_UNKNOWN) with
                    anime_id := item.id, processed := w.CurrentEpisode.processed }]
               else []) ++ [Event.TimerReset]) } := by
  unfold ProcessMediaPlayerStatus
  cases hwait : env.kSync_Update_WaitPlayer <;> simp [hitem, hwait, World.emit]

/-- C14, as stated, fails: when the player closes while the processed episode
123 is tracked, the episode handed to `EndWatching` is the one after the
reset, with `processed` false; only `UpdateList` carries the flag of before
the reset. -/
theorem player_closed_counterexample :
    processedWorld.CurrentEpisode.processed = true
      ∧ sampleEnv.FindItem processedWorld.CurrentEpisode.anime_id = some { id := 123 }
      ∧ (ProcessMediaPlayerStatus sampleEnv none processedWorld).map
          (fun w2 => emittedBetween processedWorld w2)
          = some
            [Event.EndWatching { id := 123 } { episodeWithId 0 with processed := false },
             Event.UpdateList { id := 123 } { episodeWithId 123 with processed := true },
             Event.TimerReset] := by
  decide

/-- C14, amended: when `ProcessMediaPlayerStatus` is called without a player and
the database holds `item` for the tracked id, it emits `EndWatching` exactly
once, with the episode as reset (id Unknown, `processed` false); `UpdateList`
follows exactly when the setting `kSync_Update_WaitPlayer` is on, with the id
of the item and the `processed` flag of before the reset; the episode id is
Unknown afterwards. -/
theorem player_closed (env : Env) (w : World) (item : AnimeItem)
    (hitem : env.FindItem w.CurrentEpisode.anime_id = some item) :
    ∃ w2, ProcessMediaPlayerStatus env none w = some w2
      ∧ w2.CurrentEpisode.anime_id = env.ID_UNKNOWN
      ∧ emittedBetween w w2
          = [Event.EndWatching item (w.CurrentEpisode.Set env.ID_UNKNOWN)] ++
              (if env.kSync_Update_WaitPlayer then
                [Event.UpdateList item
                  { (w.CurrentEpisode.Set env.ID_UNKNOWN) with
                    anime_id := item.id, processed := w.CurrentEpisode.processed }]
               else []) ++ [Event.TimerReset]
      ∧ (emittedBetween w w2).countP Event.isEndWatching = 1
      ∧ ((emittedBetween w w2).any Event.isUpdateList = env.kSync_Update_WaitPlayer)
      ∧ (w.CurrentEpisode.Set env.ID_UNKNOWN).anime_id = env.ID_UNKNOWN
      ∧ (w.CurrentEpisode.Set env.ID_UNKNOWN).processed = false := by
  refine ⟨_, ProcessMediaPlayerStatus_closed env w item hitem, ?_, ?_, ?_, ?_, rfl, rfl⟩
  · cases env.kSync_Update_WaitPlayer <;> rfl
  · exact emittedBetween_append _ _ _ rfl
  · rw [emittedBetween_append _ _ _ rfl]
    cases env.kSync_Update_WaitPlayer <;>
      simp [List.countP_cons, Event.isEndWatching]
  · rw [emittedBetween_append _ _ _ rfl]
    cases env.kSync_Update_WaitPlayer <;> simp [Event.isUpdateList]

/-- C14, amended, in `processedWorld`: one `EndWatching`, and the episode id is
Unknown afterwards. -/
theorem player_closed_witness :
    ∃ w2, ProcessMediaPlayerStatus sampleEnv none processedWorld = some w2
      ∧ w2.CurrentEpisode.anime_id = 0
      ∧ (emittedBetween processedWorld w2).countP Event.isEndWatching = 1 := by
  obtain ⟨w2, h1, h2, _, h4, _⟩ := player_closed sampleEnv processedWorld { id := 123 }
    (by decide)
  exact ⟨w2, h1, h2, h4⟩

/-! ## Titles of local-file players -/

theorem GetTitleFromDefaultPlayer_skip (env : Env) (pre rest : List Media) (t : String)
    (hpre : ∀ m ∈ pre, m.information = []) :
    GetTitleFromDefaultPlayer env (pre ++ rest) t = GetTitleFromDefaultPlayer env rest t := by
  induction pre with
  | nil => rfl
  | cons m ms ih =>
    have hm : m.information = [] := hpre m (List.mem_cons_self _ _)
    rw [List.cons_append]
    conv_lhs => unfold GetTitleFromDefaultPlayer
    simp only [hm]
    exact ih (fun x hx => hpre x (List.mem_cons_of_mem _ hx))

/-- C16, as stated, fails: the media list `blankMedia` is not empty, its entry
holds no information, and the function returns false. -/
theorem default_player_title_counterexample :
    blankMedia ≠ [] ∧ (GetTitleFromDefaultPlayer sampleEnv blankMedia "").1 = false := by
  decide

/-- C16, amended: `GetTitleFromDefaultPlayer` returns true exactly when some
media entry of the result holds at least one piece of information; for the
empty list it returns false. -/
theorem default_player_title_iff (env : Env) (media : List Media) (t : String) :
    ((GetTitleFromDefaultPlayer env media t).1 = true
        ↔ ∃ item ∈ media, item.information ≠ [])
      ∧ (GetTitleFromDefaultPlayer env [] t).1 = false := by
  refine ⟨?_, rfl⟩
  induction media with
  | nil => simp [GetTitleFromDefaultPlayer]
  | cons m ms ih =>
    unfold GetTitleFromDefaultPlayer
    cases hm : m.information with
    | nil => simpa [hm] using ih
    | cons info more => simp [hm]

/-- C17, as stated, fails: in `mixedMedia` a title precedes a file, and the
resolved title is the value of the title entry, not the one of the file. -/
theorem default_player_file_priority_counterexample :
    (∃ item ∈ mixedMedia, ∃ info ∈ item.information, info.type = MediaInformationType.File)
      ∧ (GetTitleFromDefaultPlayer sampleEnv mixedMedia "") = (true, "Show")
      ∧ ∀ item ∈ mixedMedia, ∀ info ∈ item.information,
          info.type = MediaInformationType.File →
          sampleEnv.TrimLeft info.value "\\?" ≠ "Show" := by
  decide

/-- C17, amended: the resolved title comes from the first piece of information
in media order, whatever its type: when the entries before `item` hold no
information and `item` holds `info` first, the function returns true with the
value of `info`, trimmed by `TrimLeft` with the characters backslash and
question mark when `info` is of type File and untrimmed otherwise; entries
after `info` are not looked at. -/
theorem default_player_first_information (env : Env) (pre post : List Media) (item : Media)
    (info : MediaInformation) (more : List MediaInformation) (t : String)
    (hpre : ∀ m ∈ pre, m.information = [])
    (hitem : item.information = info :: more) :
    GetTitleFromDefaultPlayer env (pre ++ item :: post) t
      = (true, if info.type = MediaInformationType.File
          then env.TrimLeft info.value "\\?" else info.value) := by
  rw [GetTitleFromDefaultPlayer_skip env pre _ t hpre]
  unfold GetTitleFromDefaultPlayer
  simp only [hitem]
  cases info.type <;> simp

/-- C17, amended, at `mixedMedia`: the title is "Show", the value of the first
entry. -/
theorem default_player_first_information_witness :
    GetTitleFromDefaultPlayer sampleEnv mixedMedia "" = (true, "Show") :=
  default_player_first_information sampleEnv [] []
    { information :=
        [{ type := MediaInformationType.Title, value := "Show" },
         { type := MediaInformationType.File, value := "show.mkv" }] }
    { type := MediaInformationType.Title, value := "Show" }
    [{ type := MediaInformationType.File, value := "show.mkv" }] ""
    (fun _ h => absurd h (List.not_mem_nil _)) rfl

/-! ## What a detection step leaves untouched -/

theorem GetTitleFromResult_queries (env : Env) (ep : Episode) (c : Result)
    (ct cache t : String) :
    ∀ e ∈ (GetTitleFromResult env ep c ct cache t).queries,
      ∃ u v, e = Event.ProviderQuery u v := by
  unfold GetTitleFromResult
  cases c.player.type with
  | Default => simp
  | WebBrowser =>
    unfold GetTitleFromWebBrowser
    simp only []
    split
    · simp
    · split <;> simp

theorem acceptResult_frame (w : World) (c : Result) (title : String) :
    (acceptResult w c title).CurrentEpisode = w.CurrentEpisode
      ∧ (acceptResult w c title).MediaPlayers.items = w.MediaPlayers.items
      ∧ (acceptResult w c title).log = w.log
      ∧ (title = w.MediaPlayers.current_title_ →
          (acceptResult w c title).MediaPlayers.title_changed_
            = w.MediaPlayers.title_changed_) := by
  unfold acceptResult
  by_cases h : w.MediaPlayers.current_title_ = title
  · simp [h, World.set_player_running]
  · simp only [World.set_player_running, World.set_title_changed, ne_eq, h, not_false_eq_true,
      if_true, true_and]
    intro h2
    exact absurd h2.symm h

theorem tryResults_frame (env : Env) (cs : List Result) (w : World) (t : String) :
    (tryResults env w t cs).2.CurrentEpisode = w.CurrentEpisode
      ∧ (tryResults env w t cs).2.MediaPlayers.items = w.MediaPlayers.items
      ∧ (∃ qs, (tryResults env w t cs).2.log = w.log ++ qs
          ∧ ∀ e ∈ qs, ∃ u v, e = Event.ProviderQuery u v)
      ∧ ((tryResults env w t cs).1 = false →
          (tryResults env w t cs).2.MediaPlayers.current_title_
              = w.MediaPlayers.current_title_
            ∧ (tryResults env w t cs).2.MediaPlayers.title_changed_
              = w.MediaPlayers.title_changed_
            ∧ (tryResults env w t cs).2.MediaPlayers.player_running_
              = w.MediaPlayers.player_running_
            ∧ (tryResults env w t cs).2.MediaPlayers.current_result_
              = w.MediaPlayers.current_result_)
      ∧ ((tryResults env w t cs).1 = true →
          (tryResults env w t cs).2.MediaPlayers.player_running_ = true
            ∧ (∃ c, (tryResults env w t cs).2.MediaPlayers.current_result_ = some c)
            ∧ ((tryResults env w t cs).2.MediaPlayers.current_title_
                  = w.MediaPlayers.current_title_ →
                (tryResults env w t cs).2.MediaPlayers.title_changed_
                  = w.MediaPlayers.title_changed_)) := by
  induction cs generalizing w t with
  | nil =>
    refine ⟨rfl, rfl, ⟨[], by simp [tryResults], by simp⟩, fun _ => ⟨rfl, rfl, rfl, rfl⟩, ?_⟩
    intro h
    simp [tryResults] at h
  | cons c cs ih =>
    rw [tryResults_cons]
    have hq := GetTitleFromResult_queries env w.CurrentEpisode c w.MediaPlayers.current_title_
      w.MediaPlayers.current_page_title_ t
    by_cases hok : (GetTitleFromResult env w.CurrentEpisode c w.MediaPlayers.current_title_
        w.MediaPlayers.current_page_title_ t).ok = true
    · simp only [hok, if_true]
      obtain ⟨f1, f2, f3, f4⟩ := acceptResult_frame
        (afterAttempt w (GetTitleFromResult env w.CurrentEpisode c
          w.MediaPlayers.current_title_ w.MediaPlayers.current_page_title_ t)) c
        (GetTitleFromResult env w.CurrentEpisode c w.MediaPlayers.current_title_
          w.MediaPlayers.current_page_title_ t).title
      obtain ⟨g1, g2, g3⟩ := acceptResult_fields
        (afterAttempt w (GetTitleFromResult env w.CurrentEpisode c
          w.MediaPlayers.current_title_ w.MediaPlayers.current_page_title_ t)) c
        (GetTitleFromResult env w.CurrentEpisode c w.MediaPlayers.current_title_
          w.MediaPlayers.current_page_title_ t).title
      refine ⟨f1, f2, ⟨(GetTitleFromResult env w.CurrentEpisode c w.MediaPlayers.current_title_
        w.MediaPlayers.current_page_title_ t).queries, f3, hq⟩, ?_, ?_⟩
      · intro h
        cases h
      · intro _
        refine ⟨g3, ⟨c, g1⟩, ?_⟩
        intro h
        rw [g2] at h
        exact f4 h
    · simp only [hok, Bool.false_eq_true, if_false]
      obtain ⟨i1, i2, ⟨qs, i3, i3b⟩, i4, i5⟩ := ih
        (afterAttempt w (GetTitleFromResult env w.CurrentEpisode c
          w.MediaPlayers.current_title_ w.MediaPlayers.current_page_title_ t))
        (GetTitleFromResult env w.CurrentEpisode c w.MediaPlayers.current_title_
          w.MediaPlayers.current_page_title_ t).title
      refine ⟨i1, i2, ⟨(GetTitleFromResult env w.CurrentEpisode c w.MediaPlayers.current_title_
        w.MediaPlayers.current_page_title_ t).queries ++ qs, ?_, ?_⟩, i4, i5⟩
      · rw [i3]
        simp [afterAttempt]
      · intro e he
        rcases List.mem_append.1 he with h | h
        · exact hq e h
        · exact i3b e h

theorem CheckRunningPlayers_frame (env : Env) (w : World) :
    (CheckRunningPlayers env w).2.CurrentEpisode = w.CurrentEpisode
      ∧ (CheckRunningPlayers env w).2.MediaPlayers.items = w.MediaPlayers.items
      ∧ (∃ qs, (CheckRunningPlayers env w).2.log = w.log ++ qs
          ∧ ∀ e ∈ qs, ∃ u v, e = Event.ProviderQuery u v)
      ∧ ((CheckRunningPlayers env w).1 = false →
          (CheckRunningPlayers env w).2.MediaPlayers.current_title_
              = w.MediaPlayers.current_title_
            ∧ (CheckRunningPlayers env w).2.MediaPlayers.title_changed_
              = w.MediaPlayers.title_changed_
            ∧ (CheckRunningPlayers env w).2.MediaPlayers.player_running_
              = w.MediaPlayers.player_running_
            ∧ (CheckRunningPlayers env w).2.MediaPlayers.current_result_ = none)
      ∧ ((CheckRunningPlayers env w).1 = true →
          (CheckRunningPlayers env w).2.MediaPlayers.player_running_ = true
            ∧ (∃ c, (CheckRunningPlayers env w).2.MediaPlayers.current_result_ = some c)
            ∧ ((CheckRunningPlayers env w).2.MediaPlayers.current_title_
                  = w.MediaPlayers.current_title_ →
                (CheckRunningPlayers env w).2.MediaPlayers.title_changed_
                  = w.MediaPlayers.title_changed_)) := by
  obtain ⟨h1, h2, h3, h4, h5⟩ := tryResults_frame env (candidates env w) w ""
  by_cases hres : (tryResults env w "" (candidates env w)).1 = true
  · have hval : CheckRunningPlayers env w
        = (true, (tryResults env w "" (candidates env w)).2) := by
      unfold CheckRunningPlayers checkCandidates
      simp [hres]
    rw [hval]
    exact ⟨h1, h2, h3, fun h => absurd h (by simp), fun _ => h5 hres⟩
  · have hval : CheckRunningPlayers env w
        = (false, { (tryResults env w "" (candidates env w)).2 with
            MediaPlayers := { (tryResults env w "" (candidates env w)).2.MediaPlayers with
              current_result_ := none } }) := by
      unfold CheckRunningPlayers checkCandidates
      simp [hres]
    rw [hval]
    obtain ⟨a, b, c, _⟩ := h4 (by simpa using hres)
    exact ⟨h1, h2, h3, fun _ => ⟨a, b, c, rfl⟩, fun h => absurd h (by simp)⟩

/-! ## Lifecycle of the resolved title -/

/-- C18, as stated, fails: after a tick in which the scan fails and no player
is detected, `current_title()` still is "show.mkv". -/
theorem current_title_lifecycle_counterexample :
    (CheckRunningPlayers noScanEnv watchingWorld).1 = false
      ∧ (CheckRunningPlayers noScanEnv watchingWorld).2.current_title = "show.mkv"
      ∧ (CheckRunningPlayers noScanEnv watchingWorld).2.current_title ≠ "" := by
  decide

/-- C18, amended: after a call of `CheckRunningPlayers` that detects a player,
`current_title()` is the title resolved for the first candidate that resolves;
after a call that detects none, `current_title()` is what it was before, it is
not cleared. -/
theorem current_title_lifecycle (env : Env) (w : World) :
    (∀ i c, (candidates env w)[i]? = some c →
        resolvesAt env w (candidates env w) i = true →
        (∀ j, j < i → resolvesAt env w (candidates env w) j = false) →
        (CheckRunningPlayers env w).1 = true
          ∧ (CheckRunningPlayers env w).2.current_title
              = (resolveIn env w (cacheAfter env w w.MediaPlayers.current_page_title_
                  ((candidates env w).take i)) c).title)
      ∧ ((CheckRunningPlayers env w).1 = false →
          (CheckRunningPlayers env w).2.current_title = w.current_title) := by
  refine ⟨?_, ?_⟩
  · intro i c hc hi hlt
    obtain ⟨h1, _, h3, _, _⟩ := tryResults_first env (candidates env w) w "" i c hc hi hlt
    have hval : CheckRunningPlayers env w = (true, (tryResults env w "" (candidates env w)).2) := by
      unfold CheckRunningPlayers checkCandidates
      simp [h1]
    rw [hval]
    exact ⟨rfl, h3⟩
  · intro h
    exact ((CheckRunningPlayers_frame env w).2.2.2.1 h).1

/-- C18, amended, in `watchingWorld` with the failing scan: the title
"show.mkv" is kept. -/
theorem current_title_lifecycle_witness :
    (CheckRunningPlayers noScanEnv watchingWorld).2.current_title = "show.mkv" :=
  (current_title_lifecycle noScanEnv watchingWorld).2 (by decide)

/-! ## Ticks -/

theorem GetEnabledPlayers_filter (env : Env) (players : List Player) :
    GetEnabledPlayers env players
      = players.filter (fun p => p.enabled && categoryFlag env p) := by
  induction players with
  | nil => simp [GetEnabledPlayers]
  | cons p ps ih =>
    unfold GetEnabledPlayers
    rw [ih]
    cases hen : p.enabled <;> cases ht : p.type <;>
      cases h1 : env.kRecognition_DetectMediaPlayers <;>
      cases h2 : env.kRecognition_DetectStreamingMedia <;>
      simp [List.filter_cons, categoryFlag, hen, ht, h1, h2]

theorem GetRunningPlayer_none (w : World) (h : w.MediaPlayers.current_result_ = none) :
    GetRunningPlayer w = none := by
  simp [GetRunningPlayer, h]

theorem ProcessMediaPlayerTitle_player_running (env : Env) (media_player : Player)
    (w w2 : World) (h : ProcessMediaPlayerTitle env media_player w = some w2) :
    w2.MediaPlayers.player_running_ = w.MediaPlayers.player_running_ := by
  unfold ProcessMediaPlayerTitle at h
  simp only [] at h
  split at h
  · split at h
    · cases h; rfl
    · split at h
      · split at h
        · split at h
          · split at h
            · cases h
            · cases h
              simp [World.emit, World.set_title_changed]
          · split at h
            · cases h
              simp [notRecognized_eq, World.emit]
            · split at h
              · cases h
                simp [notRecognized_eq, World.emit]
              · cases h
                simp [notRecognized_eq, World.emit]
        · cases h
          simp [notRecognized_eq, World.emit]
      · cases h
        simp [notRecognized_eq, World.emit]
  · split at h
    · cases h
      cases env.FindItem w.CurrentEpisode.anime_id
      · rw [captionChanged_none]
      · rw [captionChanged_some]
    · cases h; rfl

theorem ProcessMediaPlayerStatus_none_resets (env : Env) (w : World)
    (hrun : w.CurrentEpisode.anime_id ≠ env.ID_UNKNOWN → w.MediaPlayers.player_running_ = true) :
    (∃ w2, ProcessMediaPlayerStatus env none w = some w2)
      ∧ ∀ w2, ProcessMediaPlayerStatus env none w = some w2 →
          w2.CurrentEpisode.anime_id = env.ID_UNKNOWN := by
  cases hitem : env.FindItem w.CurrentEpisode.anime_id with
  | some item =>
    rw [ProcessMediaPlayerStatus_closed env w item hitem]
    refine ⟨⟨_, rfl⟩, ?_⟩
    intro w2 h
    cases h
    cases env.kSync_Update_WaitPlayer <;> rfl
  | none =>
    unfold ProcessMediaPlayerStatus
    simp only [hitem, World.player_running]
    by_cases hr : w.MediaPlayers.player_running_ = true
    · simp only [hr, if_true]
      refine ⟨⟨_, rfl⟩, ?_⟩
      intro w2 h
      cases h
      rfl
    · simp only [hr, Bool.false_eq_true, if_false]
      refine ⟨⟨_, rfl⟩, ?_⟩
      intro w2 h
      cases h
      by_contra hne
      exact hr (hrun hne)

/-- The relation between the episode id and `player_running_` is kept by a
tick. -/
theorem Tick_keeps_running (env : Env) (w w2 : World)
    (hinv : w.CurrentEpisode.anime_id ≠ env.ID_UNKNOWN → w.player_running = true)
    (htick : Tick env w = some w2) :
    w2.CurrentEpisode.anime_id ≠ env.ID_UNKNOWN → w2.player_running = true := by
  obtain ⟨fep, _, _, ffalse, ftrue⟩ := CheckRunningPlayers_frame env w
  have hinv1 : (CheckRunningPlayers env w).2.CurrentEpisode.anime_id ≠ env.ID_UNKNOWN →
      (CheckRunningPlayers env w).2.MediaPlayers.player_running_ = true := by
    intro hne
    cases hres : (CheckRunningPlayers env w).1 with
    | true => exact (ftrue hres).1
    | false =>
      rw [(ffalse hres).2.2.1]
      rw [fep] at hne
      exact hinv hne
  unfold Tick at htick
  cases hplayer : GetRunningPlayer (CheckRunningPlayers env w).2 with
  | none =>
    rw [hplayer] at htick
    intro hne
    exact absurd ((ProcessMediaPlayerStatus_none_resets env _ hinv1).2 w2 htick) hne
  | some q =>
    rw [hplayer] at htick
    intro _
    have hres : (CheckRunningPlayers env w).1 = true := by
      cases hres : (CheckRunningPlayers env w).1 with
      | true => rfl
      | false =>
        rw [GetRunningPlayer_none _ (ffalse hres).2.2.2] at hplayer
        cases hplayer
    have hkeep := ProcessMediaPlayerTitle_player_running env q _ w2 htick
    unfold World.player_running
    rw [hkeep]
    exact (ftrue hres).1

/-- C20: in every state reached by ticks from a state with the episode id
Unknown and no player running, `player_running` is true whenever the episode
id is not Unknown; hence a tick in which `ProcessMediaPlayerStatus` is called
without a player, as it is when `CheckRunningPlayers` returns false, returns a
state and leaves the episode id Unknown. -/
theorem reachable_running (unknown : Int) (w : World) (h : Reachable unknown w) :
    (w.CurrentEpisode.anime_id ≠ unknown → w.player_running = true)
      ∧ (∀ env : Env, env.ID_UNKNOWN = unknown →
          GetRunningPlayer (CheckRunningPlayers env w).2 = none →
          ∃ w2, Tick env w = some w2 ∧ w2.CurrentEpisode.anime_id = unknown)
      ∧ (∀ env : Env, (CheckRunningPlayers env w).1 = false →
          GetRunningPlayer (CheckRunningPlayers env w).2 = none) := by
  have hinv : w.CurrentEpisode.anime_id ≠ unknown → w.player_running = true := by
    induction h with
    | start w0 hid _ => exact fun hne => absurd hid hne
    | tick env w0 w1 _ henv htick ih =>
      rw [← henv] at ih ⊢
      exact Tick_keeps_running env w0 w1 ih htick
  refine ⟨hinv, ?_, ?_⟩
  · intro env henv hnone
    obtain ⟨fep, _, _, ffalse, ftrue⟩ := CheckRunningPlayers_frame env w
    have hinv1 : (CheckRunningPlayers env w).2.CurrentEpisode.anime_id ≠ env.ID_UNKNOWN →
        (CheckRunningPlayers env w).2.MediaPlayers.player_running_ = true := by
      intro hne
      cases hres : (CheckRunningPlayers env w).1 with
      | true => exact (ftrue hres).1
      | false =>
        rw [(ffalse hres).2.2.1]
        rw [fep, henv] at hne
        exact hinv hne
    obtain ⟨⟨w2, hw2⟩, hreset⟩ := ProcessMediaPlayerStatus_none_resets env _ hinv1
    refine ⟨w2, ?_, ?_⟩
    · unfold Tick
      rw [hnone]
      exact hw2
    · rw [← henv]
      exact hreset w2 hw2
  · intro env hres
    exact GetRunningPlayer_none _ ((CheckRunningPlayers_frame env w).2.2.2.1 hres).2.2.2

/-- C20, in the state one tick after `initialWorld`: the browser page was
recognized as 123 and a player is running. -/
theorem reachable_running_witness :
    Tick sampleEnv initialWorld = some recognizedWorld
      ∧ recognizedWorld.CurrentEpisode.anime_id ≠ 0
      ∧ recognizedWorld.player_running = true :=
  ⟨by decide, by decide,
   (reachable_running 0 recognizedWorld
      (Reachable.tick sampleEnv initialWorld recognizedWorld
        (Reachable.start initialWorld rfl rfl) rfl (by decide))).1 (by decide)⟩

/-! ## Ticks that change nothing -/

theorem ProcessMediaPlayerTitle_noop (env : Env) (media_player : Player) (w : World)
    (hid : w.CurrentEpisode.anime_id ≠ env.ID_UNKNOWN)
    (hchanged : w.title_changed = false) :
    ProcessMediaPlayerTitle env media_player w = some w := by
  unfold ProcessMediaPlayerTitle
  simp [hid, hchanged]

theorem runTicks_same_title (env : Env) (ep : Episode) (items : List Player) (title : String)
    (hid : ep.anime_id ≠ env.ID_UNKNOWN)
    (hsame : ∀ w1 : World, w1.CurrentEpisode = ep → w1.MediaPlayers.items = items →
      w1.current_title = title →
      (CheckRunningPlayers env w1).1 = true
        ∧ (CheckRunningPlayers env w1).2.current_title = title
        ∧ ∃ q, GetRunningPlayer (CheckRunningPlayers env w1).2 = some q)
    (n : Nat) (w : World)
    (hep : w.CurrentEpisode = ep) (hitems : w.MediaPlayers.items = items)
    (htitle : w.current_title = title) (hchanged : w.title_changed = false) :
    ∃ wn, runTicks env n w = some wn
      ∧ wn.CurrentEpisode = ep
      ∧ wn.title_changed = false
      ∧ wn.current_title = title
      ∧ ∃ qs, wn.log = w.log ++ qs ∧ ∀ e ∈ qs, ∃ u v, e = Event.ProviderQuery u v := by
  induction n generalizing w with
  | zero => exact ⟨w, rfl, hep, hchanged, htitle, [], by simp, by simp⟩
  | succ n ih =>
    obtain ⟨hdet, htit, q, hq⟩ := hsame w hep hitems htitle
    obtain ⟨fep, fitems, ⟨qs, flog, fqs⟩, _, ftrue⟩ := CheckRunningPlayers_frame env w
    have hch1 : (CheckRunningPlayers env w).2.title_changed = false := by
      unfold World.title_changed
      rw [(ftrue hdet).2.2 (by
        unfold World.current_title at htit htitle
        rw [htit, htitle])]
      exact hchanged
    have hid1 : (CheckRunningPlayers env w).2.CurrentEpisode.anime_id ≠ env.ID_UNKNOWN := by
      rw [fep, hep]
      exact hid
    have htick : Tick env w = some (CheckRunningPlayers env w).2 := by
      unfold Tick
      rw [hq]
      exact ProcessMediaPlayerTitle_noop env q _ hid1 hch1
    obtain ⟨wn, hrun, h1, h2, h3, qs2, hlog, hqs2⟩ := ih (CheckRunningPlayers env w).2
      (by rw [fep, hep]) (by rw [fitems, hitems]) htit hch1
    refine ⟨wn, ?_, h1, h2, h3, qs ++ qs2, ?_, ?_⟩
    · conv_lhs => unfold runTicks
      simp only [htick]
      exact hrun
    · rw [hlog, flog, List.append_assoc]
    · intro e he
      rcases List.mem_append.1 he with h | h
      · exact fqs e h
      · exact hqs2 e h

/-- C15: with the episode id not Unknown and `title_changed` false, the handler
returns the state it was given, trace included, so nothing is emitted; hence,
when every tick detects a player and resolves the same title, any number of
ticks leaves the episode and the flag as they are and emits no `StartWatching`,
`EndWatching`, `UpdateList` or recognition-failed notification. -/
theorem unchanged_title_noop (env : Env) (media_player : Player) (w : World)
    (hid : w.CurrentEpisode.anime_id ≠ env.ID_UNKNOWN)
    (hchanged : w.title_changed = false) :
    ProcessMediaPlayerTitle env media_player w = some w
      ∧ ((∀ w1 : World, w1.CurrentEpisode = w.CurrentEpisode →
            w1.MediaPlayers.items = w.MediaPlayers.items →
            w1.current_title = w.current_title →
            (CheckRunningPlayers env w1).1 = true
              ∧ (CheckRunningPlayers env w1).2.current_title = w.current_title
              ∧ ∃ q, GetRunningPlayer (CheckRunningPlayers env w1).2 = some q) →
          ∀ n, ∃ wn, runTicks env n w = some wn
            ∧ wn.CurrentEpisode = w.CurrentEpisode
            ∧ wn.title_changed = false
            ∧ wn.current_title = w.current_title
            ∧ ∀ e ∈ emittedBetween w wn,
                e.isStartWatching = false ∧ e.isEndWatching = false
                  ∧ e.isUpdateList = false ∧ e ≠ Event.OnRecognitionFail) := by
  refine ⟨ProcessMediaPlayerTitle_noop env media_player w hid hchanged, ?_⟩
  intro hsame n
  obtain ⟨wn, hrun, h1, h2, h3, qs, hlog, hqs⟩ := runTicks_same_title env w.CurrentEpisode
    w.MediaPlayers.items w.current_title hid hsame n w rfl rfl rfl hchanged
  refine ⟨wn, hrun, h1, h2, h3, ?_⟩
  rw [emittedBetween_append w wn qs hlog]
  intro e he
  obtain ⟨u, v, rfl⟩ := hqs e he
  exact ⟨rfl, rfl, rfl, by intro h; cases h⟩

/-- With the scan that returns `playerResult` only, every tick that starts
with the episode, the registry and the title of `watchingWorld` detects the
player `mpc` and resolves "show.mkv" again. -/
theorem playerOnly_same_title (w1 : World)
    (hitems : w1.MediaPlayers.items = watchingWorld.MediaPlayers.items) :
    (CheckRunningPlayers playerOnlyEnv w1).1 = true
      ∧ (CheckRunningPlayers playerOnlyEnv w1).2.current_title = watchingWorld.current_title
      ∧ ∃ q, GetRunningPlayer (CheckRunningPlayers playerOnlyEnv w1).2 = some q := by
  have hc : candidates playerOnlyEnv w1 = [playerResult] := by
    have hscan : playerOnlyEnv.GetResults
        (GetEnabledPlayers playerOnlyEnv w1.MediaPlayers.items) (VerifyMedia playerOnlyEnv)
        = (true, [playerResult]) := rfl
    unfold candidates
    simp only [hscan, if_true]
    unfold stickResults
    cases w1.MediaPlayers.current_result_ with
    | none => rfl
    | some current =>
      by_cases hv : playerOnlyEnv.IsValidId w1.CurrentEpisode.anime_id = true
      · by_cases hh : playerResult.window_handle = current.window_handle
        · simp [hv, find_if, hh, rotate]
        · simp [hv, find_if, hh]
      · simp [hv]
  obtain ⟨h1, h2, h3, _, _⟩ := tryResults_first playerOnlyEnv [playerResult] w1 "" 0
    playerResult rfl rfl (fun j hj => absurd hj (Nat.not_lt_zero j))
  have hval : CheckRunningPlayers playerOnlyEnv w1
      = (true, (tryResults playerOnlyEnv w1 "" [playerResult]).2) := by
    unfold CheckRunningPlayers checkCandidates
    rw [hc]
    simp [h1]
  rw [hval]
  refine ⟨rfl, ?_, mpc, ?_⟩
  · unfold World.current_title
    rw [h3]
    rfl
  · unfold GetRunningPlayer
    simp only [h2]
    rw [(tryResults_frame playerOnlyEnv [playerResult] w1 "").2.1, hitems]
    rfl

/-- C15, in `watchingWorld` with the scan that returns `playerResult` only:
the handler returns the state unchanged, and two further ticks leave the
episode as it is. -/
theorem unchanged_title_noop_witness :
    ProcessMediaPlayerTitle playerOnlyEnv mpc watchingWorld = some watchingWorld
      ∧ ∃ wn, runTicks playerOnlyEnv 2 watchingWorld = some wn
          ∧ wn.CurrentEpisode = watchingWorld.CurrentEpisode
          ∧ wn.title_changed = false := by
  have h := unchanged_title_noop playerOnlyEnv mpc watchingWorld (by decide) (by decide)
  obtain ⟨wn, h1, h2, h3, _⟩ := h.2 (fun w1 _ hitems _ => playerOnly_same_title w1 hitems) 2
  exact ⟨h.1, wn, h1, h2, h3⟩

/-- C19: from the initial Idle state (episode id Unknown, no player running, no
sticky result, no library item for the Unknown id), when every registry entry
is disabled or both detection flags are off, and the scan of no players
returns no results, the scan is given the empty list, `CheckRunningPlayers`
returns false, `GetRunningPlayer` returns null, and a tick, as any number of
ticks, returns the state it started from, trace included. -/
theorem no_players_enabled (env : Env) (w : World)
    (hid : w.CurrentEpisode.anime_id = env.ID_UNKNOWN)
    (hrun : w.player_running = false)
    (hsticky : w.MediaPlayers.current_result_ = none)
    (hnone : (∀ p ∈ w.MediaPlayers.items, p.enabled = false)
      ∨ (env.kRecognition_DetectMediaPlayers = false
        ∧ env.kRecognition_DetectStreamingMedia = false))
    (hscan : (env.GetResults [] (VerifyMedia env)).2 = [])
    (hdb : env.FindItem env.ID_UNKNOWN = none) :
    GetEnabledPlayers env w.MediaPlayers.items = []
      ∧ CheckRunningPlayers env w = (false, w)
      ∧ GetRunningPlayer (CheckRunningPlayers env w).2 = none
      ∧ Tick env w = some w
      ∧ ∀ n, runTicks env n w = some w := by
  have henabled : GetEnabledPlayers env w.MediaPlayers.items = [] := by
    rw [GetEnabledPlayers_filter, List.filter_eq_nil_iff]
    intro p hp
    rcases hnone with h | ⟨h1, h2⟩
    · simp [h p hp]
    · cases ht : p.type <;> simp [categoryFlag, ht, h1, h2]
  have hcands : candidates env w = [] := by
    unfold candidates
    simp only [henabled]
    cases hok : (env.GetResults [] (VerifyMedia env)).1 with
    | false => simp
    | true => simp [hscan, stickResults, hsticky]
  have hcheck : CheckRunningPlayers env w = (false, w) := by
    unfold CheckRunningPlayers checkCandidates
    rw [hcands]
    simp only [tryResults, Bool.false_eq_true, if_false]
    rw [← hsticky]
  have hplayer : GetRunningPlayer (CheckRunningPlayers env w).2 = none := by
    rw [hcheck]
    exact GetRunningPlayer_none w hsticky
  have htick : Tick env w = some w := by
    unfold Tick
    rw [hplayer, hcheck]
    unfold ProcessMediaPlayerStatus
    simp [hid, hdb, hrun]
  refine ⟨henabled, hcheck, hplayer, htick, ?_⟩
  intro n
  induction n with
  | zero => rfl
  | succ n ih =>
    conv_lhs => unfold runTicks
    simp only [htick]
    exact ih

/-- C19, in `initialWorld` with both detection flags off: a tick returns the
initial state. -/
theorem no_players_enabled_witness :
    Tick nothingEnabledEnv initialWorld = some initialWorld :=
  (no_players_enabled nothingEnabledEnv initialWorld (by decide) (by decide) (by decide)
    (Or.inr ⟨by decide, by decide⟩) (by decide) (by decide)).2.2.2.1

end Taiga
